import Mathlib

set_option linter.unusedVariables false

/-!
Formal model of the agent-network mailbox and peer-federation layer.

The definitions below are a shallow embedding of the SQLite-backed state
and of the operations in `agent_network_server.py`, `agent_network_http.py`,
`hooks/check_inbox.py` and `hooks/session_start.py`.  Timestamps are `Int`
(unix seconds), message ids are `Nat` (SQLite AUTOINCREMENT, never reused).
HTTP interactions with remote peers are modelled by oracle functions passed
in as parameters (they never touch the local store).
-/

/-- Message status column: `status IN ('pending','delivered')`. -/
inductive MsgStatus
  | pending
  | delivered
deriving DecidableEq

/-- One row of the `messages` table. -/
structure Message where
  id : Nat
  network_id : String
  sender_id : String
  recipient_id : String
  content : String
  is_broadcast : Bool
  status : MsgStatus
  created_at : Int
  delivered_at : Option Int
deriving DecidableEq

/-- One row of the `sessions` table. -/
structure Session where
  session_id : String
  agent_id : String
  network_id : String
  role : String
  joined_at : Int
  last_seen : Int
deriving DecidableEq

/-- Peer status column: `status IN ('pending','approved','rejected')`. -/
inductive PeerStatus
  | pending
  | approved
  | rejected
deriving DecidableEq

/-- Peer direction column: `direction IN ('outbound','inbound','mutual')`. -/
inductive PeerDirection
  | outbound
  | inbound
  | mutual
deriving DecidableEq

/-- One row of the `peers` table. -/
structure Peer where
  name : String
  url : String
  shared_secret : String
  status : PeerStatus
  direction : PeerDirection
  created_at : Int
  last_seen : Option Int
deriving DecidableEq

/-- The shared SQLite database: three tables plus the AUTOINCREMENT counter
for `messages.id`. -/
structure Store where
  sessions : List Session
  messages : List Message
  peers : List Peer
  next_msg_id : Nat
deriving DecidableEq

/-- The freshly created database (`init_db`): empty tables, ids start at 1. -/
def initStore : Store := ⟨[], [], [], 1⟩

/-- `AGENT_EXPIRY_SECONDS = 30`. -/
def AGENT_EXPIRY_SECONDS : Int := 30

/-- `MESSAGE_TTL_SECONDS = 7 * 24 * 3600` (hooks/session_start.py). -/
def MESSAGE_TTL_SECONDS : Int := 7 * 24 * 3600

/-- One `INSERT INTO messages (...) VALUES (...)`: the new row gets the next
AUTOINCREMENT id, status defaults to pending, `created_at` defaults to now,
`delivered_at` is NULL. -/
def insert_message (st : Store) (network sender recipient content : String)
    (is_b : Bool) (now : Int) : Store :=
  { st with
    messages := st.messages ++
      [⟨st.next_msg_id, network, sender, recipient, content, is_b,
        MsgStatus.pending, now, none⟩],
    next_msg_id := st.next_msg_id + 1 }

/-- `SELECT COUNT(*) FROM messages WHERE sender_id=? AND recipient_id=? AND
status='pending'` (unread cap query in `send_message` / `broadcast`). -/
def pending_from_count (st : Store) (sender recipient : String) : Nat :=
  (st.messages.filter (fun m =>
    m.sender_id == sender && m.recipient_id == recipient &&
      m.status == MsgStatus.pending)).length

/-- `SELECT COUNT(*) FROM messages WHERE sender_id=? AND recipient_id=? AND
created_at > ?` with `cutoff = now - 60` (rate-cap query). -/
def recent_count (st : Store) (sender recipient : String) (now : Int) : Nat :=
  (st.messages.filter (fun m =>
    m.sender_id == sender && m.recipient_id == recipient &&
      decide (m.created_at > now - 60))).length

/-- `SELECT ... FROM messages WHERE recipient_id = ? AND status = 'pending'`. -/
def pending_for (st : Store) (agent : String) : List Message :=
  st.messages.filter (fun m =>
    m.recipient_id == agent && m.status == MsgStatus.pending)

/-- Result of `_fetch_and_deliver`: the returned batch and the recomputed
remaining pending count. -/
structure FetchResult where
  messages : List Message
  remaining : Nat
deriving DecidableEq

/-- `_fetch_and_deliver` (agent_network_server.py) and the identical drain in
`hooks/check_inbox.py`: select up to `limit` oldest pending messages for the
recipient (`ORDER BY created_at LIMIT ?`), flip exactly those to delivered
(`UPDATE ... SET status='delivered', delivered_at=now WHERE id IN (...) AND
status='pending'`), recompute the remaining pending count, and refresh the
caller session's `last_seen` (the Python code resolves the session id itself
and skips the refresh when resolution fails; here that is the `Option`).
When the selection is empty the function returns before any write.
`fetch_rows` is the `SELECT ... ORDER BY created_at LIMIT ?` part. -/
def fetch_rows (st : Store) (agent_id : String) (limit : Nat) :
    List Message :=
  ((pending_for st agent_id).insertionSort
    (fun a b => a.created_at ≤ b.created_at)).take limit

def fetch_and_deliver (st : Store) (session_id : Option String)
    (agent_id : String) (limit : Nat) (now : Int) : FetchResult × Store :=
  let rows := fetch_rows st agent_id limit
  if rows.isEmpty then (⟨[], 0⟩, st)
  else
    let ids := rows.map (fun m => m.id)
    let msgs := st.messages.map (fun m =>
      if ids.contains m.id && m.status == MsgStatus.pending then
        { m with status := MsgStatus.delivered, delivered_at := some now }
      else m)
    let remaining := (msgs.filter (fun m =>
      m.recipient_id == agent_id && m.status == MsgStatus.pending)).length
    let sess := match session_id with
      | some sid => st.sessions.map (fun s =>
          if s.session_id == sid then { s with last_seen := now } else s)
      | none => st.sessions
    (⟨rows, remaining⟩, { st with messages := msgs, sessions := sess })

/-- Retention sweep (hooks/session_start.py): `DELETE FROM messages WHERE
status = 'delivered' AND delivered_at < (unixepoch('now') - TTL)`.  A NULL
`delivered_at` never compares below the cutoff. -/
def retention_sweep (st : Store) (now : Int) : Store :=
  { st with messages := st.messages.filter (fun m =>
      ! (m.status == MsgStatus.delivered &&
         (match m.delivered_at with
          | some t => decide (t < now - MESSAGE_TTL_SECONDS)
          | none => false))) }

/-! ### Peer relay (`_try_send_to_peer`) -/

/-- Outcome of a relay attempt through `_try_send_to_peer`. -/
inductive PeerSend
  | delivered (peer : String)
  | rejected (peer : String)
deriving DecidableEq

/-- Loop body of `_try_send_to_peer`: iterate over the approved+mutual peers
in table order; if the recipient appears in the peer's agent listing
(`remote_agents`, the oracle standing for `_query_peer_agents` — an empty
list on HTTP failure), POST the delivery; HTTP 200 means delivered, any
other nonzero status is surfaced as a peer rejection, and a connection
failure (status 0) falls through to the next peer. -/
def try_send_loop (remote_agents : String → List String)
    (deliver_status : String → Nat) (recipient : String) :
    List Peer → Option PeerSend
  | [] => none
  | p :: rest =>
    if (remote_agents p.name).contains recipient then
      if deliver_status p.name == 200 then some (PeerSend.delivered p.name)
      else if deliver_status p.name != 0 then some (PeerSend.rejected p.name)
      else try_send_loop remote_agents deliver_status recipient rest
    else try_send_loop remote_agents deliver_status recipient rest

/-- `_try_send_to_peer`: consult only peers with
`status = 'approved' AND direction = 'mutual'`.  Returns `none` when no peer
attempt concluded (the caller then reports the recipient as not found).
The local store is never written. -/
def try_send_to_peer (peers : List Peer) (remote_agents : String → List String)
    (deliver_status : String → Nat) (recipient : String) : Option PeerSend :=
  try_send_loop remote_agents deliver_status recipient
    (peers.filter (fun p =>
      p.status == PeerStatus.approved && p.direction == PeerDirection.mutual))

/-! ### send_message -/

/-- Result of the `send_message` MCP tool. -/
inductive SendResult
  | content_too_large
  | sent_to_peer (peer : String)
  | peer_rejected (peer : String)
  | not_found
  | inbox_full
  | rate_limited
  | sent (id : Nat)
deriving DecidableEq

/-- `send_message(to, content)` after identity resolution gave
`(agent_id, network_id)`.  Size check first; then the recipient lookup
`SELECT agent_id FROM sessions WHERE agent_id = ? AND network_id = ?` —
note: any session row counts, with no liveness filter on `last_seen`.
If no row exists the peer relay is attempted (local store unchanged either
way); otherwise the unread cap (>= 5 pending from this sender) and the rate
cap (>= 10 created in the trailing 60 s) are checked before the insert. -/
def send_message (st : Store) (now : Int)
    (remote_agents : String → List String) (deliver_status : String → Nat)
    (agent_id network_id to_id content : String) : SendResult × Store :=
  if content.length > 8000 then (SendResult.content_too_large, st)
  else
    match st.sessions.find? (fun s =>
        s.agent_id == to_id && s.network_id == network_id) with
    | none =>
      match try_send_to_peer st.peers remote_agents deliver_status to_id with
      | some (PeerSend.delivered p) => (SendResult.sent_to_peer p, st)
      | some (PeerSend.rejected p) => (SendResult.peer_rejected p, st)
      | none => (SendResult.not_found, st)
    | some _ =>
      if pending_from_count st agent_id to_id ≥ 5 then (SendResult.inbox_full, st)
      else if recent_count st agent_id to_id now ≥ 10 then
        (SendResult.rate_limited, st)
      else
        (SendResult.sent st.next_msg_id,
         insert_message st network_id agent_id to_id content false now)

/-! ### broadcast -/

/-- Loop body of `broadcast`: for each other session in the network (table
order), re-check both caps against the evolving store and insert an
`is_broadcast = 1` row when neither cap trips; over-limit recipients are
recorded as skipped, never a failure. -/
def broadcast_loop (agent_id network_id content : String) (now : Int) :
    List Session → Store → Nat × List String × Store
  | [], st => (0, [], st)
  | row :: rest, st =>
    if pending_from_count st agent_id row.agent_id ≥ 5 then
      let r := broadcast_loop agent_id network_id content now rest st
      (r.1, row.agent_id :: r.2.1, r.2.2)
    else if recent_count st agent_id row.agent_id now ≥ 10 then
      let r := broadcast_loop agent_id network_id content now rest st
      (r.1, row.agent_id :: r.2.1, r.2.2)
    else
      let r := broadcast_loop agent_id network_id content now rest
        (insert_message st network_id agent_id row.agent_id content true now)
      (r.1 + 1, r.2.1, r.2.2)

/-- Result of the `broadcast` MCP tool (local part; the remote fan-out only
contributes a count and never touches the local store). -/
inductive BroadcastResult
  | content_too_large
  | no_recipients
  | broadcast_sent (recipient_count : Nat) (skipped : List String)
deriving DecidableEq

/-- `broadcast(content)` after identity resolution: size check, then the
recipients are all sessions in the network other than the sender (no
liveness filter), then the capped fan-out loop. -/
def broadcast (st : Store) (now : Int)
    (agent_id network_id content : String) : BroadcastResult × Store :=
  if content.length > 8000 then (BroadcastResult.content_too_large, st)
  else
    let others := st.sessions.filter (fun s =>
      s.network_id == network_id && s.agent_id != agent_id)
    if others.isEmpty then (BroadcastResult.no_recipients, st)
    else
      let r := broadcast_loop agent_id network_id content now others st
      (BroadcastResult.broadcast_sent r.1 r.2.1, r.2.2)

/-! ### Identifier validation -/

/-- One character of the class `[a-zA-Z0-9_-]`. -/
def isIdentChar (c : Char) : Bool :=
  c.isAlphanum || c == '_' || c == '-'

/-- Python `re.match(r'^[a-zA-Z0-9_-]+$', s)` as the code executes it: the
pattern matches a nonempty run of class characters reaching the end of the
string, or — because Python's `$` also asserts just before a newline that
ends the string — a nonempty run of class characters followed by one final
newline character. -/
def py_match_identifier (s : String) : Bool :=
  (!s.data.isEmpty && s.data.all isIdentChar) ||
  (match s.data.getLast? with
   | some c => c == '\n' && !s.data.dropLast.isEmpty &&
       s.data.dropLast.all isIdentChar
   | none => false)

/-- Modelled from the spec: the language of the anchored regular expression
`^[A-Za-z0-9_-]+$` as the spec states it — a nonempty string every character
of which is a letter, digit, hyphen or underscore.  Kept separate from
`py_match_identifier` (the code's behaviour) to compare the two. -/
def spec_match_identifier (s : String) : Bool :=
  !s.data.isEmpty && s.data.all isIdentChar

/-! ### join_network / leave_network -/

/-- Result of the `join_network` MCP tool. -/
inductive JoinResult
  | invalid_identifier
  | already_taken
  | joined (others : List (String × String))
deriving DecidableEq

/-- The stale-session eviction inside `join_network`'s transaction:
`DELETE FROM sessions WHERE session_id = ?` on the row found by the
stale-holder query (another session on the same `(agent_id, network_id)`
idle for more than 30 seconds). -/
def evict_stale (l : List Session) (session_id agent_id network_id : String)
    (now : Int) : List Session :=
  match l.find? (fun s =>
      s.agent_id == agent_id && s.network_id == network_id &&
      s.session_id != session_id &&
      decide (now - s.last_seen > AGENT_EXPIRY_SECONDS)) with
  | some s0 => l.filter (fun s => s.session_id != s0.session_id)
  | none => l

/-- `INSERT INTO sessions ... ON CONFLICT(session_id) DO UPDATE`: update the
caller's existing row in place, else append a fresh row with `joined_at`
and `last_seen` defaulting to now. -/
def upsert_session (l : List Session)
    (session_id agent_id network_id role : String) (now : Int) :
    List Session :=
  if l.any (fun s => s.session_id == session_id) then
    l.map (fun s =>
      if s.session_id == session_id then
        { s with agent_id := agent_id, network_id := network_id,
                 role := role, last_seen := now }
      else s)
  else l ++ [⟨session_id, agent_id, network_id, role, now, now⟩]

/-- `join_network(network_id, agent_id, role)`: validate the identifier,
then in one `BEGIN IMMEDIATE` transaction: delete a stale (> 30 s idle)
session held by another `session_id` on the same `(agent_id, network_id)`;
upsert the caller's session keyed on `session_id`; the `UNIQUE(agent_id,
network_id)` constraint aborts the transaction (rolling the delete back)
with the "already taken" error when a fresh holder remains; finally read
the other sessions of the network. -/
def join_network (st : Store) (now : Int)
    (session_id agent_id network_id role : String) : JoinResult × Store :=
  if ! py_match_identifier agent_id then (JoinResult.invalid_identifier, st)
  else
    let sessions1 : List Session :=
      evict_stale st.sessions session_id agent_id network_id now
    if sessions1.any (fun s =>
        s.session_id != session_id && s.agent_id == agent_id &&
        s.network_id == network_id) then
      (JoinResult.already_taken, st)
    else
      let sessions2 : List Session :=
        upsert_session sessions1 session_id agent_id network_id role now
      let others := (sessions2.filter (fun s =>
        s.network_id == network_id && s.agent_id != agent_id)).map
          (fun s => (s.agent_id, s.role))
      (JoinResult.joined others, { st with sessions := sessions2 })

/-- `leave_network()`: `DELETE FROM sessions WHERE session_id = ?`. -/
def leave_network (st : Store) (session_id : String) : Store :=
  { st with sessions := st.sessions.filter (fun s =>
      s.session_id != session_id) }

/-- The heartbeat `UPDATE sessions SET last_seen = now WHERE session_id = ?`
performed by `wait_for_message` between polls. -/
def heartbeat (st : Store) (session_id : String) (now : Int) : Store :=
  { st with sessions := st.sessions.map (fun s =>
      if s.session_id == session_id then { s with last_seen := now } else s) }

/-! ### Peer table operations -/

/-- `pair_with(url, name, secret)`: requires a configured local HTTP URL and
a valid name; refuses when the peer already has `direction = 'mutual'`;
otherwise upserts a pending/outbound record.  The subsequent HTTP pairing
request never changes the local store, whatever its outcome. -/
def pair_with (st : Store) (now : Int) (local_url : Option String)
    (name url secret : String) : Store :=
  if local_url.isNone then st
  else if ! py_match_identifier name then st
  else
    match st.peers.find? (fun p => p.name == name) with
    | some p =>
      if p.direction == PeerDirection.mutual then st
      else
        { st with peers := st.peers.map (fun q =>
            if q.name == name then
              { q with url := url, shared_secret := secret,
                       status := PeerStatus.pending,
                       direction := PeerDirection.outbound }
            else q) }
    | none =>
      { st with peers := st.peers ++
          [⟨name, url, secret, PeerStatus.pending, PeerDirection.outbound,
            now, none⟩] }

/-- Fan-out of one system notification message to every given session
(the loop shared by the pairing-request and pairing-accept handlers). -/
def notify_sessions (st : Store) (l : List Session) (content : String)
    (now : Int) : Store :=
  l.foldl (fun acc s =>
    insert_message acc "_peer_system" "_system" s.agent_id content false now)
    st

/-- Inbound `/api/pair/request` handler: with both fields present, upsert a
pending/inbound record and enqueue one system notification message to every
local session (network `_peer_system`, sender `_system`). -/
def handle_pair_request (st : Store) (now : Int)
    (peer_name peer_url secret : String) : Store :=
  if peer_name == "" || peer_url == "" then st
  else
    let st1 : Store :=
      if st.peers.any (fun p => p.name == peer_name) then
        { st with peers := st.peers.map (fun q =>
            if q.name == peer_name then
              { q with url := peer_url, shared_secret := secret,
                       status := PeerStatus.pending,
                       direction := PeerDirection.inbound }
            else q) }
      else
        { st with peers := st.peers ++
            [⟨peer_name, peer_url, secret, PeerStatus.pending,
              PeerDirection.inbound, now, none⟩] }
    notify_sessions st1 st1.sessions ("Pairing request from " ++ peer_name)
      now

/-- `approve_peer(peer_id)`: requires an existing record that is not already
approved+mutual and whose status is pending; flips it to approved/mutual
(stamping `last_seen`); when the remote accept call cannot connect
(`reachable = false`) the flip is reverted to pending/inbound. -/
def approve_peer (st : Store) (now : Int) (peer_id : String)
    (reachable : Bool) : Store :=
  match st.peers.find? (fun p => p.name == peer_id) with
  | none => st
  | some p =>
    if p.direction == PeerDirection.mutual && p.status == PeerStatus.approved
    then st
    else if p.status != PeerStatus.pending then st
    else
      let st1 : Store := { st with peers := st.peers.map (fun q =>
        if q.name == peer_id then
          { q with status := PeerStatus.approved,
                   direction := PeerDirection.mutual, last_seen := some now }
        else q) }
      if reachable then st1
      else
        { st1 with peers := st1.peers.map (fun q =>
            if q.name == peer_id then
              { q with status := PeerStatus.pending,
                       direction := PeerDirection.inbound }
            else q) }

/-- Inbound `/api/pair/accept` handler: with a name present and a matching
record, unconditionally flip it to approved/mutual and enqueue one system
notification message to every local session. -/
def handle_pair_accept (st : Store) (now : Int) (peer_name : String) : Store :=
  if peer_name == "" then st
  else if ! st.peers.any (fun p => p.name == peer_name) then st
  else
    let st1 : Store := { st with peers := st.peers.map (fun q =>
      if q.name == peer_name then
        { q with status := PeerStatus.approved,
                 direction := PeerDirection.mutual, last_seen := some now }
      else q) }
    notify_sessions st1 st1.sessions
      ("Peer " ++ peer_name ++ " pairing confirmed") now

/-- `remove_peer(peer_id)`: `DELETE FROM peers WHERE name = ?`. -/
def remove_peer (st : Store) (peer_id : String) : Store :=
  { st with peers := st.peers.filter (fun p => p.name != peer_id) }

/-! ### HTTP server: bearer authentication and handlers -/

/-- `auth[7:]` after `auth.startswith("Bearer ")` — extract the bearer token
from the Authorization header, `none` when the header has no bearer form. -/
def bearer_token (auth : String) : Option String :=
  if ("Bearer ".data).isPrefixOf auth.data then
    some (String.mk (auth.data.drop 7))
  else none

/-- `_auth_peer`: the presented token authenticates exactly the first peer
row with `shared_secret = token AND status = 'approved' AND direction =
'mutual'`. -/
def auth_peer (peers : List Peer) (auth_header : String) : Option Peer :=
  match bearer_token auth_header with
  | none => none
  | some token => peers.find? (fun p =>
      p.shared_secret == token && p.status == PeerStatus.approved &&
      p.direction == PeerDirection.mutual)

/-- Response of `GET /api/agents`: HTTP status code, the listed agents
(`agent_id`, `role`, `is_active`), and the store (the authenticated peer's
`last_seen` is refreshed). -/
def handle_agents (st : Store) (auth_header : String)
    (network_id : Option String) (now : Int) :
    (Nat × List (String × String × Bool)) × Store :=
  match auth_peer st.peers auth_header with
  | none => ((401, []), st)
  | some peer =>
    let st1 : Store := { st with peers := st.peers.map (fun q =>
      if q.name == peer.name then { q with last_seen := some now } else q) }
    let rows : List Session := match network_id with
      | some net => st.sessions.filter (fun s => s.network_id == net)
      | none => st.sessions
    ((200, rows.map (fun s =>
        (s.agent_id, s.role, decide (now - s.last_seen < 30)))), st1)

/-- `PENDING_CAP_PER_PEER = 20` (agent_network_http.py). -/
def PENDING_CAP_PER_PEER : Nat := 20

/-- `POST /api/deliver`: bearer auth; 400 on oversized content; 429 when the
sender already has >= 20 pending messages (to any recipient); broadcast
fan-out inserts one row per session of the network; single delivery requires
a recipient field and an existing session row (any row, no liveness filter),
else 404.  Returns the HTTP status code, the delivered count, and the store. -/
def handle_deliver (st : Store) (now : Int) (auth_header : String)
    (sender_id network_id : String) (recipient_id : Option String)
    (content : String) (is_broadcast : Bool) : (Nat × Nat) × Store :=
  match auth_peer st.peers auth_header with
  | none => ((401, 0), st)
  | some _ =>
    if content.length > 8000 then ((400, 0), st)
    else
      let pending_count := (st.messages.filter (fun m =>
        m.sender_id == sender_id && m.status == MsgStatus.pending)).length
      if pending_count ≥ PENDING_CAP_PER_PEER then ((429, 0), st)
      else if is_broadcast then
        let recipients := st.sessions.filter (fun s =>
          s.network_id == network_id)
        let st1 := recipients.foldl (fun acc s =>
          insert_message acc network_id sender_id s.agent_id content true now)
          st
        ((200, recipients.length), st1)
      else
        match recipient_id with
        | none => ((400, 0), st)
        | some rid =>
          if st.sessions.any (fun s =>
              s.agent_id == rid && s.network_id == network_id) then
            ((200, 1), insert_message st network_id sender_id rid content
              false now)
          else ((404, 0), st)

/-! ### The system as a transition system over the shared store -/

/-- One operation of any of the processes sharing the store.  Oracle fields
on `send` model remote HTTP outcomes (they never affect the local store).
`fetch` is the `check_inbox` tool / `wait_for_message` drain (limit 5) and
`hook_drain` the PreToolUse hook (limit 3); both resolve the caller through
its session row. -/
inductive Op
  | join (session_id agent_id network_id role : String) (now : Int)
  | leave (session_id : String)
  | send (session_id to_id content : String)
      (remote_agents : String → List String)
      (deliver_status : String → Nat) (now : Int)
  | bcast (session_id content : String) (now : Int)
  | fetch (session_id : String) (limit : Nat) (now : Int)
  | hook_drain (session_id : String) (now : Int)
  | beat (session_id : String) (now : Int)
  | sweep (now : Int)
  | pair (local_url : Option String) (name url secret : String) (now : Int)
  | pair_request (name url secret : String) (now : Int)
  | approve (peer_id : String) (reachable : Bool) (now : Int)
  | pair_accept (name : String) (now : Int)
  | peer_remove (peer_id : String)

/-- `_get_identity`: map a session id to its `(agent_id, network_id)` row. -/
def get_identity (st : Store) (session_id : String) :
    Option (String × String) :=
  (st.sessions.find? (fun s => s.session_id == session_id)).map
    (fun s => (s.agent_id, s.network_id))

/-- Effect of one operation on the shared store.  Operations whose identity
resolution fails leave the store unchanged (the Python tool raises before
any write). -/
def applyOp (st : Store) : Op → Store
  | Op.join sid aid nid role now => (join_network st now sid aid nid role).2
  | Op.leave sid => leave_network st sid
  | Op.send sid to_id content ra ds now =>
    match get_identity st sid with
    | none => st
    | some (aid, nid) => (send_message st now ra ds aid nid to_id content).2
  | Op.bcast sid content now =>
    match get_identity st sid with
    | none => st
    | some (aid, nid) => (broadcast st now aid nid content).2
  | Op.fetch sid limit now =>
    match get_identity st sid with
    | none => st
    | some (aid, _) => (fetch_and_deliver st (some sid) aid limit now).2
  | Op.hook_drain sid now =>
    match get_identity st sid with
    | none => st
    | some (aid, _) => (fetch_and_deliver st (some sid) aid 3 now).2
  | Op.beat sid now => heartbeat st sid now
  | Op.sweep now => retention_sweep st now
  | Op.pair lu name url secret now => pair_with st now lu name url secret
  | Op.pair_request name url secret now =>
    handle_pair_request st now name url secret
  | Op.approve pid reachable now => approve_peer st now pid reachable
  | Op.pair_accept name now => handle_pair_accept st now name
  | Op.peer_remove pid => remove_peer st pid

/-- Run a sequence of operations from a starting store. -/
def runOps (ops : List Op) (st : Store) : Store :=
  ops.foldl applyOp st

/-! ### Result envelopes

The MCP tools return JSON dicts; we model a dict as an association list of
string keys and (stringified) values, with Python dict-assignment semantics:
assigning to an existing key replaces its value in place, otherwise the key
is appended. -/

/-- Python `data[k] = v` on a dict rendered as an association list. -/
def set_key : List (String × String) → String → String →
    List (String × String)
  | [], k, v => [(k, v)]
  | p :: rest, k, v =>
    if p.1 == k then (k, v) :: rest else p :: set_key rest k v

/-- `_identity_envelope`: `data["your_id"] = agent_id; data["network"] =
network_id`. -/
def identity_envelope (d : List (String × String))
    (agent_id network_id : String) : List (String × String) :=
  set_key (set_key d "your_id" agent_id) "network" network_id

/-- Rendering of a `_fetch_and_deliver` result dict:
`{"messages": [...], "has_more": ..., "remaining": ...}`. -/
def fetch_result_dict (r : FetchResult) : List (String × String) :=
  [("messages", String.intercalate "," (r.messages.map (fun m =>
      toString m.id))),
   ("has_more", toString (decide (r.remaining > 0))),
   ("remaining", toString r.remaining)]

/-- The dict returned by `send_message`; every path passes through
`_identity_envelope`.  `resp` stands for the remote peer's JSON body merged
by `{**resp, ...}` on the sent-to-peer path. -/
def send_message_dict (st : Store) (now : Int)
    (remote_agents : String → List String) (deliver_status : String → Nat)
    (resp : String → List (String × String))
    (agent_id network_id to_id content : String) : List (String × String) :=
  identity_envelope
    (match (send_message st now remote_agents deliver_status
        agent_id network_id to_id content).1 with
     | SendResult.content_too_large =>
       [("error", "Message too large (" ++ toString content.length ++
          " chars). Max is 8,000.")]
     | SendResult.sent_to_peer p =>
       set_key (set_key (resp p) "status" "sent_to_peer") "peer" p
     | SendResult.peer_rejected p => [("error", "Peer " ++ p ++ " rejected")]
     | SendResult.not_found =>
       [("error", "Agent " ++ to_id ++ " not found in network " ++
          network_id ++ ".")]
     | SendResult.inbox_full =>
       [("error", "Recipient has 5 unread messages from you.")]
     | SendResult.rate_limited =>
       [("error", "Rate limit reached (10 messages/minute to this agent).")]
     | SendResult.sent id =>
       [("status", "sent"), ("message_id", toString id), ("to", to_id)])
    agent_id network_id

/-- The dict returned by `broadcast` (remote fan-out contributes only
`remote_count`); every path passes through `_identity_envelope`. -/
def broadcast_dict (st : Store) (now : Int) (remote_count : Nat)
    (agent_id network_id content : String) : List (String × String) :=
  identity_envelope
    (match (broadcast st now agent_id network_id content).1 with
     | BroadcastResult.content_too_large =>
       [("error", "Message too large (" ++ toString content.length ++
          " chars). Max is 8,000.")]
     | BroadcastResult.no_recipients =>
       [("status", "no_recipients"),
        ("message", "No other agents in the network to broadcast to.")]
     | BroadcastResult.broadcast_sent n skipped =>
       [("status", "broadcast_sent"), ("recipient_count", toString n)] ++
       (if remote_count > 0 then [("remote_count", toString remote_count)]
        else []) ++
       (if skipped.isEmpty then []
        else [("skipped", String.intercalate "; " skipped)]))
    agent_id network_id

/-- The dict returned by `check_inbox` (fetch with limit 5, enveloped). -/
def check_inbox_dict (st : Store) (session_id : String)
    (agent_id network_id : String) (now : Int) : List (String × String) :=
  identity_envelope
    (fetch_result_dict
      (fetch_and_deliver st (some session_id) agent_id 5 now).1)
    agent_id network_id

/-- The dict returned by `wait_for_message` on timeout (enveloped); on a hit
it returns the same enveloped fetch dict as `check_inbox`. -/
def wait_timeout_dict (agent_id network_id : String) (timeout : Nat) :
    List (String × String) :=
  identity_envelope
    [("status", "timeout"), ("messages", ""), ("waited", toString timeout)]
    agent_id network_id

/-- The dict returned by `list_agents` (local sessions plus remote agents
from mutual peers, enveloped).  `remote_total` abbreviates the remote
agents gathered over the peer listings. -/
def list_agents_dict (st : Store) (remote_total : Nat)
    (agent_id network_id : String) (now : Int) : List (String × String) :=
  identity_envelope
    [("agents", String.intercalate ","
        (((st.sessions.filter (fun s => s.network_id == network_id)).map
          (fun s => s.agent_id)))),
     ("count", toString
        ((st.sessions.filter (fun s => s.network_id == network_id)).length +
          remote_total))]
    agent_id network_id

/-- The dict returned by `join_network`: error paths carry only `error`;
the success path lists identity and peers inline (not via the envelope
helper, but with the same keys). -/
def join_dict (st : Store) (now : Int)
    (session_id agent_id network_id role : String) : List (String × String) :=
  match (join_network st now session_id agent_id network_id role).1 with
  | JoinResult.invalid_identifier =>
    [("error", "Invalid agent_id " ++ agent_id ++ ".")]
  | JoinResult.already_taken =>
    [("error", "Agent ID " ++ agent_id ++ " is already taken in network " ++
       network_id ++ ".")]
  | JoinResult.joined others =>
    [("status", "joined"), ("your_id", agent_id), ("network", network_id),
     ("other_agents", String.intercalate "," (others.map (fun o => o.1))),
     ("listener_command", "bash listener.sh " ++ agent_id),
     ("listener_instructions", "Spawn a background Bash task.")]

/-- The dict returned by `leave_network`. -/
def leave_dict (agent_id network_id : String) : List (String × String) :=
  [("status", "left"), ("your_id", agent_id), ("network", network_id)]

/-- The dict returned by `pair_with` (no identity envelope in the source).
`req_status` is the HTTP status of the outbound pairing request. -/
def pair_with_dict (st : Store) (local_url : Option String)
    (name url secret : String) (req_status : Nat) : List (String × String) :=
  if local_url.isNone then
    [("error", "Set AGENT_NETWORK_HTTP_URL env var before pairing.")]
  else if ! py_match_identifier name then
    [("error", "Invalid peer name " ++ name ++ ".")]
  else if (st.peers.any (fun p =>
      p.name == name && p.direction == PeerDirection.mutual)) then
    [("error", "Already paired with " ++ name ++ ".")]
  else if req_status == 0 then
    [("status", "pending"), ("peer", name),
     ("warning", "Could not reach " ++ url ++ ".")]
  else if req_status == 200 then
    [("status", "pending"), ("peer", name),
     ("message", "Pairing request sent.")]
  else
    [("status", "pending"), ("peer", name),
     ("warning", "Remote returned " ++ toString req_status ++ ".")]

/-- The dict returned by `approve_peer` (no identity envelope in the
source). -/
def approve_peer_dict (st : Store) (peer_id : String) (reachable : Bool) :
    List (String × String) :=
  match st.peers.find? (fun p => p.name == peer_id) with
  | none => [("error", "Peer " ++ peer_id ++ " not found.")]
  | some p =>
    if p.direction == PeerDirection.mutual && p.status == PeerStatus.approved
    then [("error", "Peer " ++ peer_id ++ " is already approved.")]
    else if p.status != PeerStatus.pending then
      [("error", "Peer " ++ peer_id ++ " is not pending.")]
    else if reachable then
      [("status", "approved"), ("peer", peer_id), ("url", p.url)]
    else
      [("error", "Could not reach peer " ++ peer_id ++ ". Reverted to pending.")]

/-- The dict returned by `list_peers` (no identity envelope in the source). -/
def list_peers_dict (st : Store) : List (String × String) :=
  [("peers", String.intercalate ","
      (st.peers.map (fun p => p.name ++ " " ++ p.url))),
   ("count", toString st.peers.length)]

/-- The dict returned by `remove_peer` (no identity envelope in the
source). -/
def remove_peer_dict (st : Store) (peer_id : String) :
    List (String × String) :=
  if st.peers.any (fun p => p.name == peer_id) then
    [("status", "removed"), ("peer", peer_id)]
  else [("error", "Peer " ++ peer_id ++ " not found.")]

/-! ### Invariants and claim vocabulary -/

/-- A peer row in one of the three reachable trust combinations:
pending+outbound, pending+inbound, approved+mutual. -/
def peer_combo_ok (p : Peer) : Bool :=
  (p.status == PeerStatus.pending && p.direction == PeerDirection.outbound) ||
  (p.status == PeerStatus.pending && p.direction == PeerDirection.inbound) ||
  (p.status == PeerStatus.approved && p.direction == PeerDirection.mutual)

/-- Session-table invariant: distinct rows never share an
`(agent_id, network_id)` pair, and `session_id` is a primary key. -/
def sessions_wf (l : List Session) : Prop :=
  l.Pairwise (fun a b =>
    ¬(a.agent_id = b.agent_id ∧ a.network_id = b.network_id)) ∧
  l.Pairwise (fun a b => a.session_id ≠ b.session_id)

/-- Message-table well-formedness: every id is below the AUTOINCREMENT
counter and ids are unique. -/
def msg_wf (st : Store) : Prop :=
  (∀ m ∈ st.messages, m.id < st.next_msg_id) ∧
  (st.messages.map (fun m => m.id)).Nodup

/-- A set of message ids all below the counter and all delivered: once a
fetch has returned a batch, this holds of its ids and is preserved by every
subsequent operation. -/
def delivered_ids (ids : List Nat) (st : Store) : Prop :=
  (∀ i ∈ ids, i < st.next_msg_id) ∧
  (∀ m ∈ st.messages, m.id ∈ ids → m.status = MsgStatus.delivered)

/-- The claim C6 authentication criterion: some peer row matches the token
and is approved+mutual. -/
def token_approved (peers : List Peer) (token : String) : Prop :=
  ∃ p ∈ peers, p.shared_secret = token ∧ p.status = PeerStatus.approved ∧
    p.direction = PeerDirection.mutual

/-! ### Concrete stores used by the witnesses and counterexamples -/

/-- A delivered message whose delivery timestamp is long past. -/
def c7_m_old : Message :=
  ⟨1, "net", "A", "B", "hi", false, MsgStatus.delivered, 0, some 0⟩

/-- A pending message of the same age. -/
def c7_m_pend : Message :=
  ⟨2, "net", "A", "B", "hello", false, MsgStatus.pending, 0, none⟩

/-- Store holding one old delivered and one old pending message. -/
def c7_store : Store := ⟨[], [c7_m_old, c7_m_pend], [], 3⟩

/-- An approved+mutual peer with shared secret "s". -/
def c6_peer_ok : Peer :=
  ⟨"peerA", "http://a", "s", PeerStatus.approved, PeerDirection.mutual, 0,
   none⟩

/-- A pending+inbound peer with shared secret "t". -/
def c6_peer_pending : Peer :=
  ⟨"peerB", "http://b", "t", PeerStatus.pending, PeerDirection.inbound, 0,
   none⟩

/-- Store with one approved and one pending peer. -/
def c6_store : Store := ⟨[], [], [c6_peer_ok, c6_peer_pending], 1⟩

/-- Store whose only session row for agent B is stale: `last_seen = 0`,
queried at `now = 1000`, far beyond the 30-second liveness window. -/
def c2_store : Store := ⟨[⟨"sB", "B", "net", "", 0, 0⟩], [], [], 1⟩

/-- Ten messages from A to B created in the trailing minute before
`now = 1000`: the first five already delivered, the last five pending. -/
def c3_messages : List Message :=
  [⟨1, "net", "A", "B", "m1", false, MsgStatus.delivered, 950, some 960⟩,
   ⟨2, "net", "A", "B", "m2", false, MsgStatus.delivered, 951, some 960⟩,
   ⟨3, "net", "A", "B", "m3", false, MsgStatus.delivered, 952, some 960⟩,
   ⟨4, "net", "A", "B", "m4", false, MsgStatus.delivered, 953, some 960⟩,
   ⟨5, "net", "A", "B", "m5", false, MsgStatus.delivered, 954, some 960⟩,
   ⟨6, "net", "A", "B", "m6", false, MsgStatus.pending, 955, none⟩,
   ⟨7, "net", "A", "B", "m7", false, MsgStatus.pending, 956, none⟩,
   ⟨8, "net", "A", "B", "m8", false, MsgStatus.pending, 957, none⟩,
   ⟨9, "net", "A", "B", "m9", false, MsgStatus.pending, 958, none⟩,
   ⟨10, "net", "A", "B", "m10", false, MsgStatus.pending, 959, none⟩]

/-- Store reached by ten sends from A to B inside one minute, five of them
already read: five pending from A, ten created in the trailing 60 s. -/
def c3_store : Store := ⟨[⟨"sB", "B", "net", "", 0, 995⟩], c3_messages, [], 11⟩

/-- `c3_store` after B drains its inbox with a limit-5 fetch at t = 1000. -/
def c3_drained : Store := (fetch_and_deliver c3_store (some "sB") "B" 5 1000).2

/-- Store with three pending messages from A to B, all recent. -/
def c4_store : Store :=
  ⟨[⟨"sB", "B", "net", "", 0, 995⟩],
   [⟨1, "net", "A", "B", "m1", false, MsgStatus.pending, 970, none⟩,
    ⟨2, "net", "A", "B", "m2", false, MsgStatus.pending, 971, none⟩,
    ⟨3, "net", "A", "B", "m3", false, MsgStatus.pending, 972, none⟩],
   [], 4⟩

/-- Store with one configured peer, used to inspect peer-operation result
envelopes. -/
def c9_store : Store :=
  ⟨[⟨"sA", "A", "net", "", 0, 0⟩], [],
   [⟨"peerA", "http://a", "s", PeerStatus.approved, PeerDirection.mutual, 0,
     none⟩], 1⟩

/-- Operation trace used by the C1 witness: two agents join and A sends one
message to B. -/
def c1_pre_ops : List Op :=
  [Op.join "s1" "A" "net" "" 0,
   Op.join "s2" "B" "net" "" 0,
   Op.send "s1" "B" "hi" (fun _ => []) (fun _ => 0) 1]

/-- All peer rows sit in one of the three reachable combinations. -/
def peers_ok (st : Store) : Prop :=
  ∀ p ∈ st.peers, peer_combo_ok p = true

/-! ### Theorems -/

lemma mem_sweep_iff (st : Store) (now : Int) (m : Message) :
    m ∈ (retention_sweep st now).messages ↔
      m ∈ st.messages ∧
      ¬(m.status = MsgStatus.delivered ∧
        ∃ t, m.delivered_at = some t ∧ t < now - MESSAGE_TTL_SECONDS) := by
  unfold retention_sweep
  rw [List.mem_filter]
  cases hd : m.delivered_at with
  | none => simp [hd]
  | some t => simp [hd]; intro _; tauto

/-- C7: the retention sweep deletes exactly the delivered messages whose
delivery timestamp is more than 7 days (`MESSAGE_TTL_SECONDS`) in the past;
every pending message regardless of age and every message delivered within
the window survives, nothing new appears, and the other tables are
untouched. -/
theorem retention_sweep_exact (st : Store) (now : Int) (m : Message) :
    (m ∈ st.messages → m.status = MsgStatus.pending →
      m ∈ (retention_sweep st now).messages) ∧
    (m ∈ st.messages → m.status = MsgStatus.delivered →
      (∀ t, m.delivered_at = some t → now - MESSAGE_TTL_SECONDS ≤ t) →
      m ∈ (retention_sweep st now).messages) ∧
    (m ∈ st.messages → m.status = MsgStatus.delivered →
      (∃ t, m.delivered_at = some t ∧ t < now - MESSAGE_TTL_SECONDS) →
      m ∉ (retention_sweep st now).messages) ∧
    (m ∈ (retention_sweep st now).messages → m ∈ st.messages) ∧
    (retention_sweep st now).sessions = st.sessions ∧
    (retention_sweep st now).peers = st.peers ∧
    (retention_sweep st now).next_msg_id = st.next_msg_id := by
  refine ⟨?_, ?_, ?_, ?_, rfl, rfl, rfl⟩
  · intro hm hp
    rw [mem_sweep_iff]
    refine ⟨hm, ?_⟩
    rintro ⟨hdel, _⟩
    rw [hp] at hdel
    exact MsgStatus.noConfusion hdel
  · intro hm _ hrecent
    rw [mem_sweep_iff]
    refine ⟨hm, ?_⟩
    rintro ⟨_, t, hat, hlt⟩
    have := hrecent t hat
    omega
  · intro hm hdel hold
    rw [mem_sweep_iff]
    rintro ⟨_, hno⟩
    exact hno ⟨hdel, hold⟩
  · intro hm
    exact (mem_sweep_iff st now m).mp hm |>.1

/-- Witness for C7 at a concrete store: the old delivered message is purged
while the equally old pending message survives the sweep. -/
theorem retention_sweep_exact_witness :
    c7_m_pend ∈ (retention_sweep c7_store 1000000).messages ∧
    c7_m_old ∉ (retention_sweep c7_store 1000000).messages := by
  constructor
  · exact (retention_sweep_exact c7_store 1000000 c7_m_pend).1
      (by decide) (by decide)
  · exact (retention_sweep_exact c7_store 1000000 c7_m_old).2.2.1
      (by decide) (by decide) ⟨0, by decide, by decide⟩

/-- C8: the code's identifier validation is Python `re.match` with an
anchored pattern, whose `$` also matches before one trailing newline; the
string made of "a" followed by a newline therefore passes validation and
join proceeds, although the spec's regular expression `[A-Za-z0-9_-]+`
rejects it.  Ordinary identifiers behave as specified: a valid one joins,
one with a space is rejected. -/
theorem join_accepts_trailing_newline :
    spec_match_identifier "a\n" = false ∧
    py_match_identifier "a\n" = true ∧
    (join_network initStore 0 "s1" "a\n" "net" "").1 = JoinResult.joined [] ∧
    (join_network initStore 0 "s1" "abc-123_X" "net" "").1 =
      JoinResult.joined [] ∧
    (join_network initStore 0 "s1" "a b" "net" "").1 =
      JoinResult.invalid_identifier := by
  refine ⟨by decide, by decide, by decide, by decide, by decide⟩

lemma auth_peer_isSome_iff (peers : List Peer) (h token : String)
    (ht : bearer_token h = some token) :
    (auth_peer peers h).isSome ↔ token_approved peers token := by
  unfold auth_peer token_approved
  rw [ht, List.find?_isSome]
  constructor
  · rintro ⟨p, hp, hpred⟩
    simp only [Bool.and_eq_true, beq_iff_eq] at hpred
    exact ⟨p, hp, hpred.1.1, hpred.1.2, hpred.2⟩
  · rintro ⟨p, hp, h1, h2, h3⟩
    exact ⟨p, hp, by simp [h1, h2, h3]⟩

lemma auth_peer_none_iff (peers : List Peer) (h token : String)
    (ht : bearer_token h = some token) :
    auth_peer peers h = none ↔ ¬ token_approved peers token := by
  rw [← auth_peer_isSome_iff peers h token ht, Option.not_isSome_iff_eq_none]

/-- C6: with a bearer header carrying `token`, a request to a
bearer-authenticated endpoint authenticates exactly when some peer row has
that shared secret with status approved and direction mutual; otherwise
both `/api/agents` and `/api/deliver` answer 401, in particular whenever
every peer holding that secret is pending or rejected (or not mutual). -/
theorem bearer_auth_exact (st : Store) (h token : String)
    (network_id : Option String) (now : Int)
    (sender_id net_id : String) (recipient_id : Option String)
    (content : String) (is_b : Bool)
    (ht : bearer_token h = some token) :
    ((auth_peer st.peers h).isSome ↔ token_approved st.peers token) ∧
    ((handle_agents st h network_id now).1.1 = 401 ↔
      ¬ token_approved st.peers token) ∧
    ((handle_agents st h network_id now).1.1 = 200 ↔
      token_approved st.peers token) ∧
    ((handle_deliver st now h sender_id net_id recipient_id content
        is_b).1.1 = 401 ↔ ¬ token_approved st.peers token) ∧
    ((∀ p ∈ st.peers, p.shared_secret = token →
        ¬(p.status = PeerStatus.approved ∧
          p.direction = PeerDirection.mutual)) →
      (handle_agents st h network_id now).1.1 = 401 ∧
      (handle_deliver st now h sender_id net_id recipient_id content
        is_b).1.1 = 401) := by
  have hiff := auth_peer_isSome_iff st.peers h token ht
  cases hap : auth_peer st.peers h with
  | none =>
    have hno : ¬ token_approved st.peers token := by
      rw [← hiff]
      simp [hap]
    refine ⟨by simp [hno], ?_, ?_, ?_, ?_⟩
    · simp [handle_agents, hap, hno]
    · simp [handle_agents, hap, hno]
    · simp [handle_deliver, hap, hno]
    · intro _
      constructor
      · simp [handle_agents, hap]
      · simp [handle_deliver, hap]
  | some p =>
    have hyes : token_approved st.peers token := by
      rw [← hiff]
      simp [hap]
    refine ⟨by simp [hyes], ?_, ?_, ?_, ?_⟩
    · simp only [handle_agents, hap]
      simp [hyes]
    · simp only [handle_agents, hap]
      simp [hyes]
    · simp only [handle_deliver, hap]
      constructor
      · intro hcode
        exfalso
        revert hcode
        repeat' split
        all_goals simp
      · intro hcontra
        exact absurd hyes hcontra
    · intro hall
      exfalso
      rcases hyes with ⟨q, hq, h1, h2, h3⟩
      exact hall q hq h1 ⟨h2, h3⟩

/-- Witness for C6: with the concrete peer table of `c6_store`, the
approved+mutual peer's secret is accepted on `/api/agents` while the
pending peer's secret is refused with 401 on both endpoints. -/
theorem bearer_auth_exact_witness :
    (handle_agents c6_store "Bearer s" none 0).1.1 = 200 ∧
    (handle_agents c6_store "Bearer t" none 0).1.1 = 401 ∧
    (handle_deliver c6_store 0 "Bearer t" "A" "net" none "x" false).1.1 =
      401 := by
  refine ⟨?_, ?_, ?_⟩
  · exact (bearer_auth_exact c6_store "Bearer s" "s" none 0 "A" "net" none
      "x" false (by decide)).2.2.1.mpr
      ⟨c6_peer_ok, by decide, by decide, by decide, by decide⟩
  · exact ((bearer_auth_exact c6_store "Bearer t" "t" none 0 "A" "net" none
      "x" false (by decide)).2.2.2.2
      (by decide)).1
  · exact ((bearer_auth_exact c6_store "Bearer t" "t" none 0 "A" "net" none
      "x" false (by decide)).2.2.2.2
      (by decide)).2

/-- C2 counterexample: at t = 1000 agent B's only session row is stale
(idle for 1000 s, far past the 30-second liveness window), there are no
peers so a relay could locate nobody — the claim then requires the
recipient-not-found error — yet `send_message` enqueues the message
locally, because the recipient lookup has no liveness filter. -/
theorem send_stale_session_counterexample :
    (∀ s ∈ c2_store.sessions, ¬(s.agent_id = "B" ∧ s.network_id = "net" ∧
      1000 - s.last_seen < AGENT_EXPIRY_SECONDS)) ∧
    try_send_to_peer c2_store.peers (fun _ => []) (fun _ => 0) "B" = none ∧
    (send_message c2_store 1000 (fun _ => []) (fun _ => 0)
      "A" "net" "B" "hi").1 = SendResult.sent 1 ∧
    (send_message c2_store 1000 (fun _ => []) (fun _ => 0)
      "A" "net" "B" "hi").1 ≠ SendResult.not_found := by
  decide

/-- C2 (amended): when the recipient has no session row at all in the
network, send consults the relay and returns not-found exactly when the
relay locates nobody, the local store unchanged in every relay outcome;
when any session row exists — live or stale — the send is handled locally:
its outcome is independent of the remote oracles and is one of the inbox
cap error, the rate cap error, or a successful local enqueue. -/
theorem send_local_row_or_relay (st : Store) (now : Int)
    (ra ra' : String → List String) (ds ds' : String → Nat)
    (agent_id network_id to_id content : String)
    (hlen : content.length ≤ 8000) :
    ((∀ s ∈ st.sessions, ¬(s.agent_id = to_id ∧
        s.network_id = network_id)) →
      (send_message st now ra ds agent_id network_id to_id content).2 = st ∧
      ((send_message st now ra ds agent_id network_id to_id content).1 =
          SendResult.not_found ↔
        try_send_to_peer st.peers ra ds to_id = none) ∧
      (∀ p, try_send_to_peer st.peers ra ds to_id =
          some (PeerSend.delivered p) →
        (send_message st now ra ds agent_id network_id to_id content).1 =
          SendResult.sent_to_peer p) ∧
      (∀ p, try_send_to_peer st.peers ra ds to_id =
          some (PeerSend.rejected p) →
        (send_message st now ra ds agent_id network_id to_id content).1 =
          SendResult.peer_rejected p)) ∧
    ((∃ s ∈ st.sessions, s.agent_id = to_id ∧ s.network_id = network_id) →
      send_message st now ra ds agent_id network_id to_id content =
        send_message st now ra' ds' agent_id network_id to_id content ∧
      ((send_message st now ra ds agent_id network_id to_id content).1 =
          SendResult.inbox_full ∨
       (send_message st now ra ds agent_id network_id to_id content).1 =
          SendResult.rate_limited ∨
       (send_message st now ra ds agent_id network_id to_id content).1 =
          SendResult.sent st.next_msg_id)) := by
  have hsize : ¬(content.length > 8000) := by omega
  constructor
  · intro hnone
    have hfind : st.sessions.find? (fun s =>
        s.agent_id == to_id && s.network_id == network_id) = none := by
      rw [List.find?_eq_none]
      intro x hx
      simp only [Bool.and_eq_true, beq_iff_eq]
      exact fun hc => hnone x hx hc
    have key : send_message st now ra ds agent_id network_id to_id content =
        match try_send_to_peer st.peers ra ds to_id with
        | some (PeerSend.delivered p) => (SendResult.sent_to_peer p, st)
        | some (PeerSend.rejected p) => (SendResult.peer_rejected p, st)
        | none => (SendResult.not_found, st) := by
      unfold send_message
      rw [if_neg hsize, hfind]
    rcases hres : try_send_to_peer st.peers ra ds to_id with _ | ps
    · rw [key, hres]
      simp
    · cases ps with
      | delivered p =>
        rw [key, hres]
        simp
      | rejected p =>
        rw [key, hres]
        simp
  · intro hex
    have hfind : ∃ s0, st.sessions.find? (fun s =>
        s.agent_id == to_id && s.network_id == network_id) = some s0 := by
      rw [← Option.isSome_iff_exists, List.find?_isSome]
      obtain ⟨s, hs, h1, h2⟩ := hex
      exact ⟨s, hs, by simp [h1, h2]⟩
    obtain ⟨s0, hs0⟩ := hfind
    have key : ∀ (ra2 : String → List String) (ds2 : String → Nat),
        send_message st now ra2 ds2 agent_id network_id to_id content =
        if pending_from_count st agent_id to_id ≥ 5 then
          (SendResult.inbox_full, st)
        else if recent_count st agent_id to_id now ≥ 10 then
          (SendResult.rate_limited, st)
        else (SendResult.sent st.next_msg_id,
          insert_message st network_id agent_id to_id content false now) := by
      intro ra2 ds2
      unfold send_message
      rw [if_neg hsize, hs0]
    constructor
    · rw [key ra ds, key ra' ds']
    · rw [key ra ds]
      split
      · exact Or.inl rfl
      · split
        · exact Or.inr (Or.inl rfl)
        · exact Or.inr (Or.inr rfl)

/-- Witness for C2 (amended): with no session at all the send reports
not-found (empty store, no peers), and with B's stale session row present
the outcome is the same under two different remote oracles. -/
theorem send_local_row_or_relay_witness :
    (send_message initStore 1000 (fun _ => []) (fun _ => 0)
      "A" "net" "B" "hi").1 = SendResult.not_found ∧
    send_message c2_store 1000 (fun _ => ["B"]) (fun _ => 200)
      "A" "net" "B" "hi" =
      send_message c2_store 1000 (fun _ => []) (fun _ => 0)
        "A" "net" "B" "hi" := by
  constructor
  · exact ((send_local_row_or_relay initStore 1000 (fun _ => [])
      (fun _ => []) (fun _ => 0) (fun _ => 0) "A" "net" "B" "hi"
      (by decide)).1 (by decide)).2.1.mpr (by decide)
  · exact ((send_local_row_or_relay c2_store 1000 (fun _ => ["B"])
      (fun _ => []) (fun _ => 200) (fun _ => 0) "A" "net" "B" "hi"
      (by decide)).2 ⟨⟨"sB", "B", "net", "", 0, 0⟩, by decide, rfl, rfl⟩).1

/-- C3 counterexample: in `c3_store` ten messages from A to B were created
within the trailing minute, five of them still pending, so the further
send fails on the unread cap as the claim states; but after B fully drains
its inbox (limit-5 fetch, leaving zero pending) the same send still fails —
now on the rate cap, since the drain does not age the creation timestamps —
contradicting "once B drains its inbox ... the same send succeeds". -/
theorem unread_cap_drain_counterexample :
    pending_from_count c3_store "A" "B" = 5 ∧
    (send_message c3_store 1000 (fun _ => []) (fun _ => 0)
      "A" "net" "B" "x").1 = SendResult.inbox_full ∧
    pending_from_count c3_drained "A" "B" = 0 ∧
    (send_message c3_drained 1000 (fun _ => []) (fun _ => 0)
      "A" "net" "B" "x").1 = SendResult.rate_limited ∧
    (send_message c3_drained 1000 (fun _ => []) (fun _ => 0)
      "A" "net" "B" "x").1 ≠ SendResult.sent c3_drained.next_msg_id := by
  decide

/-- C3 (amended): with a resolvable recipient and admissible content, a
send with at least five pending messages from this sender fails on the
unread cap and inserts nothing; once fewer than five remain pending the
same send succeeds provided fewer than ten messages from this sender to
this recipient were created in the trailing 60 seconds (otherwise it is
rate limited). -/
theorem unread_cap_blocks_until_drained (st : Store) (now : Int)
    (ra : String → List String) (ds : String → Nat)
    (sender network_id recipient content : String)
    (hrow : ∃ s ∈ st.sessions, s.agent_id = recipient ∧
      s.network_id = network_id)
    (hlen : content.length ≤ 8000) :
    (pending_from_count st sender recipient ≥ 5 →
      send_message st now ra ds sender network_id recipient content =
        (SendResult.inbox_full, st)) ∧
    (pending_from_count st sender recipient < 5 →
      recent_count st sender recipient now < 10 →
      (send_message st now ra ds sender network_id recipient content).1 =
        SendResult.sent st.next_msg_id ∧
      (send_message st now ra ds sender network_id recipient
          content).2.messages =
        st.messages ++ [⟨st.next_msg_id, network_id, sender, recipient,
          content, false, MsgStatus.pending, now, none⟩]) := by
  have hsize : ¬(content.length > 8000) := by omega
  have hfind : ∃ s0, st.sessions.find? (fun s =>
      s.agent_id == recipient && s.network_id == network_id) = some s0 := by
    rw [← Option.isSome_iff_exists, List.find?_isSome]
    obtain ⟨s, hs, h1, h2⟩ := hrow
    exact ⟨s, hs, by simp [h1, h2]⟩
  obtain ⟨s0, hs0⟩ := hfind
  have key : send_message st now ra ds sender network_id recipient content =
      if pending_from_count st sender recipient ≥ 5 then
        (SendResult.inbox_full, st)
      else if recent_count st sender recipient now ≥ 10 then
        (SendResult.rate_limited, st)
      else (SendResult.sent st.next_msg_id,
        insert_message st network_id sender recipient content false now) := by
    unfold send_message
    rw [if_neg hsize, hs0]
  constructor
  · intro hcap
    rw [key, if_pos hcap]
  · intro hcap hrate
    rw [key, if_neg (by omega), if_neg (by omega)]
    exact ⟨rfl, rfl⟩

/-- Witness for C3 (amended): at `c3_store` the capped send fails
inbox-full; at `c4_store` (three pending, three recent) it succeeds. -/
theorem unread_cap_blocks_until_drained_witness :
    send_message c3_store 1000 (fun _ => []) (fun _ => 0)
      "A" "net" "B" "x" = (SendResult.inbox_full, c3_store) ∧
    (send_message c4_store 1000 (fun _ => []) (fun _ => 0)
      "A" "net" "B" "x").1 = SendResult.sent 4 := by
  constructor
  · exact (unread_cap_blocks_until_drained c3_store 1000 (fun _ => [])
      (fun _ => 0) "A" "net" "B" "x"
      ⟨⟨"sB", "B", "net", "", 0, 995⟩, by decide, rfl, rfl⟩
      (by decide)).1 (by decide)
  · exact ((unread_cap_blocks_until_drained c4_store 1000 (fun _ => [])
      (fun _ => 0) "A" "net" "B" "x"
      ⟨⟨"sB", "B", "net", "", 0, 995⟩, by decide, rfl, rfl⟩
      (by decide)).2 (by decide) (by decide)).1

/-- C4: with a resolvable recipient, admissible content and the unread cap
clear, a send is rate limited exactly when at least ten messages from this
sender to this recipient were created in the trailing 60 seconds; below
ten it succeeds, and once every such message is at least 60 seconds old the
trailing-window count is zero (so sending succeeds again after the window
elapses). -/
theorem rate_cap_exact (st : Store) (now : Int)
    (ra : String → List String) (ds : String → Nat)
    (sender network_id recipient content : String)
    (hrow : ∃ s ∈ st.sessions, s.agent_id = recipient ∧
      s.network_id = network_id)
    (hlen : content.length ≤ 8000)
    (hpend : pending_from_count st sender recipient < 5) :
    ((send_message st now ra ds sender network_id recipient content).1 =
        SendResult.rate_limited ↔
      recent_count st sender recipient now ≥ 10) ∧
    (recent_count st sender recipient now < 10 →
      (send_message st now ra ds sender network_id recipient content).1 =
        SendResult.sent st.next_msg_id) ∧
    ((∀ m ∈ st.messages, m.sender_id = sender → m.recipient_id = recipient →
        m.created_at ≤ now - 60) →
      recent_count st sender recipient now = 0) := by
  have hsize : ¬(content.length > 8000) := by omega
  have hfind : ∃ s0, st.sessions.find? (fun s =>
      s.agent_id == recipient && s.network_id == network_id) = some s0 := by
    rw [← Option.isSome_iff_exists, List.find?_isSome]
    obtain ⟨s, hs, h1, h2⟩ := hrow
    exact ⟨s, hs, by simp [h1, h2]⟩
  obtain ⟨s0, hs0⟩ := hfind
  have key : send_message st now ra ds sender network_id recipient content =
      if pending_from_count st sender recipient ≥ 5 then
        (SendResult.inbox_full, st)
      else if recent_count st sender recipient now ≥ 10 then
        (SendResult.rate_limited, st)
      else (SendResult.sent st.next_msg_id,
        insert_message st network_id sender recipient content false now) := by
    unfold send_message
    rw [if_neg hsize, hs0]
  rw [key, if_neg (by omega)]
  refine ⟨?_, ?_, ?_⟩
  · constructor
    · intro hres
      by_contra hlt
      rw [if_neg hlt] at hres
      exact SendResult.noConfusion hres
    · intro hge
      rw [if_pos hge]
  · intro hlt
    rw [if_neg (by omega)]
  · intro hall
    unfold recent_count
    rw [List.length_eq_zero, List.filter_eq_nil_iff]
    intro m hm
    simp only [Bool.and_eq_true, beq_iff_eq, decide_eq_true_eq]
    rintro ⟨⟨h1, h2⟩, h3⟩
    have := hall m hm h1 h2
    omega

/-- Witness for C4: at `c3_drained` (ten recent creations) the send is rate
limited; at `c4_store` (three recent) it succeeds. -/
theorem rate_cap_exact_witness :
    (send_message c3_drained 1000 (fun _ => []) (fun _ => 0)
      "A" "net" "B" "x").1 = SendResult.rate_limited ∧
    (send_message c4_store 1000 (fun _ => []) (fun _ => 0)
      "A" "net" "B" "x").1 = SendResult.sent 4 := by
  constructor
  · exact (rate_cap_exact c3_drained 1000 (fun _ => []) (fun _ => 0)
      "A" "net" "B" "x"
      ⟨⟨"sB", "B", "net", "", 0, 1000⟩, by decide, rfl, rfl⟩
      (by decide) (by decide)).1.mpr (by decide)
  · exact (rate_cap_exact c4_store 1000 (fun _ => []) (fun _ => 0)
      "A" "net" "B" "x"
      ⟨⟨"sB", "B", "net", "", 0, 995⟩, by decide, rfl, rfl⟩
      (by decide) (by decide)).2.1 (by decide)

lemma lookup_set_key_self (d : List (String × String)) (k v : String) :
    (set_key d k v).lookup k = some v := by
  induction d with
  | nil => simp [set_key, List.lookup]
  | cons p rest ih =>
    rcases p with ⟨pk, pv⟩
    by_cases h : pk = k
    · subst h
      simp [set_key, List.lookup]
    · have h1 : (pk == k) = false := by simp [h]
      have h2 : (k == pk) = false := by simp [Ne.symm h]
      simp [set_key, h1, List.lookup, h2, ih]

lemma lookup_set_key_ne (d : List (String × String)) (k k' v : String)
    (h : k ≠ k') : (set_key d k' v).lookup k = d.lookup k := by
  have h0 : (k == k') = false := by simp [h]
  induction d with
  | nil => simp [set_key, List.lookup, h0]
  | cons p rest ih =>
    rcases p with ⟨pk, pv⟩
    by_cases hp : pk = k'
    · subst hp
      have h2 : (k == pk) = false := by simp [h]
      simp [set_key, List.lookup, h2]
    · have h1 : (pk == k') = false := by simp [hp]
      by_cases hk : k = pk
      · subst hk
        simp [set_key, h1, List.lookup]
      · have h3 : (k == pk) = false := by simp [hk]
        simp [set_key, h1, List.lookup, h3, ih]

lemma lookup_identity_envelope (d : List (String × String)) (a n : String) :
    (identity_envelope d a n).lookup "your_id" = some a ∧
    (identity_envelope d a n).lookup "network" = some n := by
  unfold identity_envelope
  constructor
  · rw [lookup_set_key_ne _ _ _ _ (by decide)]
    exact lookup_set_key_self d "your_id" a
  · exact lookup_set_key_self _ "network" n

/-- C9 counterexample: the result dict of `list_peers` on a concrete store
(one configured peer, one joined session) carries neither the caller's
agent id nor the network — `list_peers` never applies the identity
envelope. -/
theorem list_peers_no_envelope_counterexample :
    (list_peers_dict c9_store).lookup "your_id" = none ∧
    (list_peers_dict c9_store).lookup "network" = none := by
  decide

/-- C9 (amended): the messaging operations — send, broadcast, check-inbox,
wait, list-agents, leave, and join on success — return result envelopes
carrying the caller's resolved agent id (`your_id`) and network on every
path; the peer-management operations (pair, approve-peer, list-peers,
remove-peer) and join's error returns carry neither. -/
theorem identity_envelope_coverage (st : Store) (now : Int)
    (remote_count remote_total timeout : Nat)
    (ra : String → List String) (ds : String → Nat)
    (resp : String → List (String × String))
    (session_id agent_id network_id role to_id content : String)
    (local_url : Option String) (req_status : Nat) (reachable : Bool)
    (peer_id name url secret : String) :
    ((send_message_dict st now ra ds resp agent_id network_id to_id
        content).lookup "your_id" = some agent_id ∧
     (send_message_dict st now ra ds resp agent_id network_id to_id
        content).lookup "network" = some network_id) ∧
    ((broadcast_dict st now remote_count agent_id network_id
        content).lookup "your_id" = some agent_id ∧
     (broadcast_dict st now remote_count agent_id network_id
        content).lookup "network" = some network_id) ∧
    ((check_inbox_dict st session_id agent_id network_id now).lookup
        "your_id" = some agent_id ∧
     (check_inbox_dict st session_id agent_id network_id now).lookup
        "network" = some network_id) ∧
    ((wait_timeout_dict agent_id network_id timeout).lookup "your_id" =
        some agent_id ∧
     (wait_timeout_dict agent_id network_id timeout).lookup "network" =
        some network_id) ∧
    ((list_agents_dict st remote_total agent_id network_id now).lookup
        "your_id" = some agent_id ∧
     (list_agents_dict st remote_total agent_id network_id now).lookup
        "network" = some network_id) ∧
    ((leave_dict agent_id network_id).lookup "your_id" = some agent_id ∧
     (leave_dict agent_id network_id).lookup "network" = some network_id) ∧
    (∀ others, (join_network st now session_id agent_id network_id
        role).1 = JoinResult.joined others →
      (join_dict st now session_id agent_id network_id role).lookup
          "your_id" = some agent_id ∧
      (join_dict st now session_id agent_id network_id role).lookup
          "network" = some network_id) ∧
    (pair_with_dict st local_url name url secret req_status).lookup
        "your_id" = none ∧
    (approve_peer_dict st peer_id reachable).lookup "your_id" = none ∧
    (list_peers_dict st).lookup "your_id" = none ∧
    (remove_peer_dict st peer_id).lookup "your_id" = none := by
  refine ⟨lookup_identity_envelope _ _ _, lookup_identity_envelope _ _ _,
    lookup_identity_envelope _ _ _, lookup_identity_envelope _ _ _,
    lookup_identity_envelope _ _ _, ?_, ?_, ?_, ?_, ?_, ?_⟩
  · constructor
    · simp [leave_dict, List.lookup]
    · simp [leave_dict, List.lookup]
  · intro others h
    unfold join_dict
    rw [h]
    constructor
    · simp [List.lookup]
    · simp [List.lookup]
  · unfold pair_with_dict
    repeat' split
    all_goals simp [List.lookup]
  · unfold approve_peer_dict
    repeat' split
    all_goals simp [List.lookup]
  · simp [list_peers_dict, List.lookup]
  · unfold remove_peer_dict
    split
    all_goals simp [List.lookup]

/-- Witness for C9 (amended): concrete lookups — the successful join result
carries `your_id`, and so does a concrete send result. -/
theorem identity_envelope_coverage_witness :
    (join_dict initStore 0 "s1" "A" "net" "").lookup "your_id" =
      some "A" ∧
    (send_message_dict c4_store 1000 (fun _ => []) (fun _ => 0)
      (fun _ => []) "A" "net" "B" "x").lookup "your_id" = some "A" := by
  constructor
  · exact ((identity_envelope_coverage initStore 0 0 0 0 (fun _ => [])
      (fun _ => 0) (fun _ => []) "s1" "A" "net" "" "B" "x" none 0 false
      "p" "n" "u" "sec").2.2.2.2.2.2.1 [] (by decide)).1
  · exact (identity_envelope_coverage c4_store 1000 0 0 0 (fun _ => [])
      (fun _ => 0) (fun _ => []) "s1" "A" "net" "" "B" "x" none 0 false
      "p" "n" "u" "sec").1.1

/-! ### Which tables each operation leaves untouched -/

lemma insert_message_peers (st : Store) (n s r c : String) (b : Bool)
    (t : Int) : (insert_message st n s r c b t).peers = st.peers := rfl

lemma insert_message_sessions (st : Store) (n s r c : String) (b : Bool)
    (t : Int) : (insert_message st n s r c b t).sessions = st.sessions := rfl

lemma notify_sessions_peers (l : List Session) (st : Store) (c : String)
    (t : Int) : (notify_sessions st l c t).peers = st.peers := by
  induction l generalizing st with
  | nil => rfl
  | cons s rest ih =>
    unfold notify_sessions at ih ⊢
    simp only [List.foldl_cons]
    rw [ih]
    rfl

lemma notify_sessions_sessions (l : List Session) (st : Store) (c : String)
    (t : Int) : (notify_sessions st l c t).sessions = st.sessions := by
  induction l generalizing st with
  | nil => rfl
  | cons s rest ih =>
    unfold notify_sessions at ih ⊢
    simp only [List.foldl_cons]
    rw [ih]
    rfl

lemma fetch_and_deliver_peers (st : Store) (sid : Option String) (a : String)
    (lim : Nat) (now : Int) :
    (fetch_and_deliver st sid a lim now).2.peers = st.peers := by
  unfold fetch_and_deliver
  dsimp only
  repeat' split
  all_goals rfl

lemma join_network_peers (st : Store) (now : Int) (sid aid nid role : String) :
    (join_network st now sid aid nid role).2.peers = st.peers := by
  unfold join_network
  split
  · rfl
  · dsimp only
    split
    · rfl
    · rfl

lemma send_message_peers (st : Store) (now : Int)
    (ra : String → List String) (ds : String → Nat)
    (aid nid to_id content : String) :
    (send_message st now ra ds aid nid to_id content).2.peers = st.peers := by
  unfold send_message
  repeat' split
  all_goals rfl

lemma send_message_sessions (st : Store) (now : Int)
    (ra : String → List String) (ds : String → Nat)
    (aid nid to_id content : String) :
    (send_message st now ra ds aid nid to_id content).2.sessions =
      st.sessions := by
  unfold send_message
  repeat' split
  all_goals rfl

lemma broadcast_loop_peers (l : List Session) (aid nid content : String)
    (now : Int) (st : Store) :
    (broadcast_loop aid nid content now l st).2.2.peers = st.peers := by
  induction l generalizing st with
  | nil => rfl
  | cons s rest ih =>
    unfold broadcast_loop
    dsimp only
    split
    · exact ih st
    · split
      · exact ih st
      · rw [ih]
        rfl

lemma broadcast_loop_sessions (l : List Session) (aid nid content : String)
    (now : Int) (st : Store) :
    (broadcast_loop aid nid content now l st).2.2.sessions = st.sessions := by
  induction l generalizing st with
  | nil => rfl
  | cons s rest ih =>
    unfold broadcast_loop
    dsimp only
    split
    · exact ih st
    · split
      · exact ih st
      · rw [ih]
        rfl

lemma broadcast_peers (st : Store) (now : Int) (aid nid content : String) :
    (broadcast st now aid nid content).2.peers = st.peers := by
  unfold broadcast
  split
  · rfl
  · dsimp only
    split
    · rfl
    · exact broadcast_loop_peers _ _ _ _ _ _

lemma broadcast_sessions (st : Store) (now : Int) (aid nid content : String) :
    (broadcast st now aid nid content).2.sessions = st.sessions := by
  unfold broadcast
  split
  · rfl
  · dsimp only
    split
    · rfl
    · exact broadcast_loop_sessions _ _ _ _ _ _

lemma handle_pair_request_sessions (st : Store) (now : Int)
    (n u s : String) :
    (handle_pair_request st now n u s).sessions = st.sessions := by
  unfold handle_pair_request
  repeat' split
  all_goals simp [notify_sessions_sessions]

lemma handle_pair_accept_sessions (st : Store) (now : Int) (n : String) :
    (handle_pair_accept st now n).sessions = st.sessions := by
  unfold handle_pair_accept
  repeat' split
  all_goals simp [notify_sessions_sessions]

lemma pair_with_sessions (st : Store) (now : Int) (lu : Option String)
    (n u s : String) : (pair_with st now lu n u s).sessions = st.sessions := by
  unfold pair_with
  repeat' split
  all_goals rfl

lemma approve_peer_sessions (st : Store) (now : Int) (pid : String)
    (r : Bool) : (approve_peer st now pid r).sessions = st.sessions := by
  unfold approve_peer
  repeat' split
  all_goals rfl

/-! ### C5: peer trust-state invariant -/

lemma peers_ok_pair_with (st : Store) (now : Int) (lu : Option String)
    (n u s : String) (h : peers_ok st) :
    peers_ok (pair_with st now lu n u s) := by
  unfold pair_with
  repeat' split
  all_goals try exact h
  · intro p hp
    simp only [List.mem_map] at hp
    obtain ⟨q, hq, rfl⟩ := hp
    split
    · simp [peer_combo_ok]
    · exact h q hq
  · intro p hp
    rcases List.mem_append.mp hp with hq | hq
    · exact h p hq
    · simp only [List.mem_singleton] at hq
      subst hq
      simp [peer_combo_ok]

lemma peers_ok_handle_pair_request (st : Store) (now : Int) (n u s : String)
    (h : peers_ok st) : peers_ok (handle_pair_request st now n u s) := by
  unfold handle_pair_request
  split
  · exact h
  · dsimp only
    intro p hp
    rw [notify_sessions_peers] at hp
    revert hp
    split
    · intro hp
      simp only [List.mem_map] at hp
      obtain ⟨q, hq, rfl⟩ := hp
      split
      · simp [peer_combo_ok]
      · exact h q hq
    · intro hp
      rcases List.mem_append.mp hp with hq | hq
      · exact h p hq
      · simp only [List.mem_singleton] at hq
        subst hq
        simp [peer_combo_ok]

lemma peers_ok_approve_peer (st : Store) (now : Int) (pid : String)
    (r : Bool) (h : peers_ok st) : peers_ok (approve_peer st now pid r) := by
  unfold approve_peer
  split
  · exact h
  · split
    · exact h
    · split
      · exact h
      · dsimp only
        split
        · intro p hp
          simp only [List.mem_map] at hp
          obtain ⟨q, hq, rfl⟩ := hp
          split
          · simp [peer_combo_ok]
          · exact h q hq
        · intro p hp
          simp only [List.mem_map] at hp
          obtain ⟨x, hx, rfl⟩ := hp
          obtain ⟨q, hq, rfl⟩ := hx
          repeat' split
          all_goals first
          | exact h q hq
          | simp [peer_combo_ok]

lemma peers_ok_handle_pair_accept (st : Store) (now : Int) (n : String)
    (h : peers_ok st) : peers_ok (handle_pair_accept st now n) := by
  unfold handle_pair_accept
  split
  · exact h
  · split
    · exact h
    · dsimp only
      intro p hp
      rw [notify_sessions_peers] at hp
      simp only [List.mem_map] at hp
      obtain ⟨q, hq, rfl⟩ := hp
      split
      · simp [peer_combo_ok]
      · exact h q hq

lemma peers_ok_remove_peer (st : Store) (pid : String) (h : peers_ok st) :
    peers_ok (remove_peer st pid) := by
  intro p hp
  exact h p (List.mem_of_mem_filter hp)

lemma peers_ok_applyOp (st : Store) (op : Op) (h : peers_ok st) :
    peers_ok (applyOp st op) := by
  cases op with
  | join sid aid nid role now =>
    intro p hp
    simp only [applyOp] at hp
    rw [join_network_peers] at hp
    exact h p hp
  | leave sid =>
    intro p hp
    exact h p hp
  | send sid to_id content ra ds now =>
    cases hgi : get_identity st sid with
    | none =>
      simp only [applyOp, hgi]
      exact h
    | some pr =>
      obtain ⟨aid, nid⟩ := pr
      simp only [applyOp, hgi]
      intro p hp
      rw [send_message_peers] at hp
      exact h p hp
  | bcast sid content now =>
    cases hgi : get_identity st sid with
    | none =>
      simp only [applyOp, hgi]
      exact h
    | some pr =>
      obtain ⟨aid, nid⟩ := pr
      simp only [applyOp, hgi]
      intro p hp
      rw [broadcast_peers] at hp
      exact h p hp
  | fetch sid limit now =>
    cases hgi : get_identity st sid with
    | none =>
      simp only [applyOp, hgi]
      exact h
    | some pr =>
      obtain ⟨aid, nid⟩ := pr
      simp only [applyOp, hgi]
      intro p hp
      rw [fetch_and_deliver_peers] at hp
      exact h p hp
  | hook_drain sid now =>
    cases hgi : get_identity st sid with
    | none =>
      simp only [applyOp, hgi]
      exact h
    | some pr =>
      obtain ⟨aid, nid⟩ := pr
      simp only [applyOp, hgi]
      intro p hp
      rw [fetch_and_deliver_peers] at hp
      exact h p hp
  | beat sid now =>
    intro p hp
    exact h p hp
  | sweep now =>
    intro p hp
    exact h p hp
  | pair lu n u s now => exact peers_ok_pair_with st now lu n u s h
  | pair_request n u s now => exact peers_ok_handle_pair_request st now n u s h
  | approve pid r now => exact peers_ok_approve_peer st now pid r h
  | pair_accept n now => exact peers_ok_handle_pair_accept st now n h
  | peer_remove pid => exact peers_ok_remove_peer st pid h

lemma peers_ok_runOps (ops : List Op) (st : Store) (h : peers_ok st) :
    peers_ok (runOps ops st) := by
  induction ops generalizing st with
  | nil => exact h
  | cons op rest ih =>
    simp only [runOps, List.foldl_cons]
    exact ih (applyOp st op) (peers_ok_applyOp st op h)

/-- C5: in every store reachable from the fresh database by any sequence of
operations (pairing, inbound pairing requests, approval with its
unreachable-remote revert, accepts, removals, and all mailbox operations),
every peer row's (status, direction) pair is pending+outbound,
pending+inbound, or approved+mutual. -/
theorem peer_state_combinations (ops : List Op) :
    ∀ p ∈ (runOps ops initStore).peers,
      (p.status = PeerStatus.pending ∧
        p.direction = PeerDirection.outbound) ∨
      (p.status = PeerStatus.pending ∧
        p.direction = PeerDirection.inbound) ∨
      (p.status = PeerStatus.approved ∧
        p.direction = PeerDirection.mutual) := by
  intro p hp
  have h0 : peers_ok initStore := by
    intro q hq
    simp [initStore] at hq
  have h := peers_ok_runOps ops initStore h0 p hp
  simp only [peer_combo_ok, Bool.or_eq_true, Bool.and_eq_true,
    beq_iff_eq] at h
  tauto

/-- Witness for C5: the peer row created by a concrete inbound pairing
request sits in one of the three combinations. -/
theorem peer_state_combinations_witness :
    ((⟨"m", "u", "sec", PeerStatus.pending, PeerDirection.inbound, 5,
        none⟩ : Peer).status = PeerStatus.pending ∧
      (⟨"m", "u", "sec", PeerStatus.pending, PeerDirection.inbound, 5,
        none⟩ : Peer).direction = PeerDirection.outbound) ∨
    ((⟨"m", "u", "sec", PeerStatus.pending, PeerDirection.inbound, 5,
        none⟩ : Peer).status = PeerStatus.pending ∧
      (⟨"m", "u", "sec", PeerStatus.pending, PeerDirection.inbound, 5,
        none⟩ : Peer).direction = PeerDirection.inbound) ∨
    ((⟨"m", "u", "sec", PeerStatus.pending, PeerDirection.inbound, 5,
        none⟩ : Peer).status = PeerStatus.approved ∧
      (⟨"m", "u", "sec", PeerStatus.pending, PeerDirection.inbound, 5,
        none⟩ : Peer).direction = PeerDirection.mutual) :=
  peer_state_combinations [Op.pair_request "m" "u" "sec" 5]
    ⟨"m", "u", "sec", PeerStatus.pending, PeerDirection.inbound, 5, none⟩
    (by decide)

/-! ### C10: session (agent, network) uniqueness -/

lemma sessions_wf_sublist (l l' : List Session) (hs : List.Sublist l' l)
    (h : sessions_wf l) : sessions_wf l' :=
  ⟨h.1.sublist hs, h.2.sublist hs⟩

lemma sessions_wf_map (l : List Session) (f : Session → Session)
    (hf : ∀ s, (f s).session_id = s.session_id ∧
      (f s).agent_id = s.agent_id ∧ (f s).network_id = s.network_id)
    (h : sessions_wf l) : sessions_wf (l.map f) := by
  obtain ⟨h1, h2⟩ := h
  constructor
  · rw [List.pairwise_map]
    refine h1.imp fun {a b} hab => ?_
    rw [(hf a).2.1, (hf a).2.2, (hf b).2.1, (hf b).2.2]
    exact hab
  · rw [List.pairwise_map]
    refine h2.imp fun {a b} hab => ?_
    rw [(hf a).1, (hf b).1]
    exact hab

lemma sessions_wf_upsert (l : List Session) (sid aid nid role : String)
    (now : Int) (hwf : sessions_wf l)
    (hconf : ∀ s ∈ l, s.session_id ≠ sid →
      ¬(s.agent_id = aid ∧ s.network_id = nid)) :
    sessions_wf (upsert_session l sid aid nid role now) := by
  obtain ⟨h1, h2⟩ := hwf
  unfold upsert_session
  by_cases hany : (l.any fun s => s.session_id == sid) = true
  · rw [if_pos hany]
    have gid : ∀ s : Session,
        ((if (s.session_id == sid) = true then
          { s with agent_id := aid, network_id := nid, role := role,
                   last_seen := now } else s) : Session).session_id =
          s.session_id := by
      intro s
      split
      · rfl
      · rfl
    constructor
    · rw [List.pairwise_map]
      refine (h1.and h2).imp_of_mem ?_
      intro a b ha hb hab
      obtain ⟨hpd, hsne⟩ := hab
      by_cases haid : a.session_id = sid
      · by_cases hbid : b.session_id = sid
        · exact absurd (haid.trans hbid.symm) hsne
        · have ea : (a.session_id == sid) = true := beq_iff_eq.mpr haid
          have eb : (b.session_id == sid) = false := by simp [hbid]
          simp only [ea, eb, if_true, if_false, Bool.false_eq_true]
          intro hc
          exact hconf b hb hbid ⟨hc.1.symm, hc.2.symm⟩
      · by_cases hbid : b.session_id = sid
        · have ea : (a.session_id == sid) = false := by simp [haid]
          have eb : (b.session_id == sid) = true := beq_iff_eq.mpr hbid
          simp only [ea, eb, if_true, if_false, Bool.false_eq_true]
          intro hc
          exact hconf a ha haid ⟨hc.1, hc.2⟩
        · have ea : (a.session_id == sid) = false := by simp [haid]
          have eb : (b.session_id == sid) = false := by simp [hbid]
          simp only [ea, eb, if_false, Bool.false_eq_true]
          exact hpd
    · rw [List.pairwise_map]
      refine h2.imp fun {a b} hab => ?_
      rw [gid a, gid b]
      exact hab
  · rw [if_neg hany]
    have hnot : ∀ s ∈ l, s.session_id ≠ sid := by
      intro s hs he
      exact hany (List.any_eq_true.mpr ⟨s, hs, beq_iff_eq.mpr he⟩)
    constructor
    · rw [List.pairwise_append]
      refine ⟨h1, List.pairwise_singleton _ _, ?_⟩
      intro a ha b hb
      simp only [List.mem_singleton] at hb
      subst hb
      exact fun hc => hconf a ha (hnot a ha) hc
    · rw [List.pairwise_append]
      refine ⟨h2, List.pairwise_singleton _ _, ?_⟩
      intro a ha b hb
      simp only [List.mem_singleton] at hb
      subst hb
      exact hnot a ha

lemma sessions_wf_evict (l : List Session) (sid aid nid : String) (now : Int)
    (h : sessions_wf l) : sessions_wf (evict_stale l sid aid nid now) := by
  unfold evict_stale
  split
  · exact sessions_wf_sublist _ _ (List.filter_sublist l) h
  · exact h

lemma sessions_wf_join (st : Store) (now : Int) (sid aid nid role : String)
    (h : sessions_wf st.sessions) :
    sessions_wf (join_network st now sid aid nid role).2.sessions := by
  unfold join_network
  split
  · exact h
  · dsimp only
    by_cases hconf : ((evict_stale st.sessions sid aid nid now).any fun s =>
        s.session_id != sid && s.agent_id == aid &&
          s.network_id == nid) = true
    · rw [if_pos hconf]
      exact h
    · rw [if_neg hconf]
      show sessions_wf (upsert_session
        (evict_stale st.sessions sid aid nid now) sid aid nid role now)
      apply sessions_wf_upsert
      · exact sessions_wf_evict _ _ _ _ _ h
      · intro s hs hne hc
        apply hconf
        rw [List.any_eq_true]
        refine ⟨s, hs, ?_⟩
        simp [bne_iff_ne, hne, hc.1, hc.2]

lemma fetch_and_deliver_sessions_cases (st : Store) (sid : Option String)
    (a : String) (lim : Nat) (now : Int) :
    (fetch_and_deliver st sid a lim now).2.sessions = st.sessions ∨
    ∃ s0, (fetch_and_deliver st sid a lim now).2.sessions =
      st.sessions.map (fun s =>
        if s.session_id == s0 then { s with last_seen := now } else s) := by
  unfold fetch_and_deliver
  dsimp only
  split
  · exact Or.inl rfl
  · cases sid with
    | none => exact Or.inl rfl
    | some s0 => exact Or.inr ⟨s0, rfl⟩

lemma sessions_wf_fetch (st : Store) (sid : Option String) (a : String)
    (lim : Nat) (now : Int) (h : sessions_wf st.sessions) :
    sessions_wf (fetch_and_deliver st sid a lim now).2.sessions := by
  rcases fetch_and_deliver_sessions_cases st sid a lim now with he | ⟨s0, he⟩
  · rw [he]
    exact h
  · rw [he]
    apply sessions_wf_map
    · intro s
      split
      · exact ⟨rfl, rfl, rfl⟩
      · exact ⟨rfl, rfl, rfl⟩
    · exact h

lemma sessions_wf_applyOp (st : Store) (op : Op)
    (h : sessions_wf st.sessions) :
    sessions_wf (applyOp st op).sessions := by
  cases op with
  | join sid aid nid role now => exact sessions_wf_join st now sid aid nid role h
  | leave sid => exact sessions_wf_sublist _ _ (List.filter_sublist _) h
  | send sid to_id content ra ds now =>
    cases hgi : get_identity st sid with
    | none =>
      simp only [applyOp, hgi]
      exact h
    | some pr =>
      obtain ⟨aid, nid⟩ := pr
      simp only [applyOp, hgi]
      rw [send_message_sessions]
      exact h
  | bcast sid content now =>
    cases hgi : get_identity st sid with
    | none =>
      simp only [applyOp, hgi]
      exact h
    | some pr =>
      obtain ⟨aid, nid⟩ := pr
      simp only [applyOp, hgi]
      rw [broadcast_sessions]
      exact h
  | fetch sid limit now =>
    cases hgi : get_identity st sid with
    | none =>
      simp only [applyOp, hgi]
      exact h
    | some pr =>
      obtain ⟨aid, nid⟩ := pr
      simp only [applyOp, hgi]
      exact sessions_wf_fetch st (some sid) aid limit now h
  | hook_drain sid now =>
    cases hgi : get_identity st sid with
    | none =>
      simp only [applyOp, hgi]
      exact h
    | some pr =>
      obtain ⟨aid, nid⟩ := pr
      simp only [applyOp, hgi]
      exact sessions_wf_fetch st (some sid) aid 3 now h
  | beat sid now =>
    apply sessions_wf_map
    · intro s
      split
      · exact ⟨rfl, rfl, rfl⟩
      · exact ⟨rfl, rfl, rfl⟩
    · exact h
  | sweep now => exact h
  | pair lu n u s now =>
    show sessions_wf (pair_with st now lu n u s).sessions
    rw [pair_with_sessions]
    exact h
  | pair_request n u s now =>
    show sessions_wf (handle_pair_request st now n u s).sessions
    rw [handle_pair_request_sessions]
    exact h
  | approve pid r now =>
    show sessions_wf (approve_peer st now pid r).sessions
    rw [approve_peer_sessions]
    exact h
  | pair_accept n now =>
    show sessions_wf (handle_pair_accept st now n).sessions
    rw [handle_pair_accept_sessions]
    exact h
  | peer_remove pid => exact h

lemma sessions_wf_runOps (ops : List Op) (st : Store)
    (h : sessions_wf st.sessions) :
    sessions_wf (runOps ops st).sessions := by
  induction ops generalizing st with
  | nil => exact h
  | cons op rest ih =>
    simp only [runOps, List.foldl_cons]
    exact ih (applyOp st op) (sessions_wf_applyOp st op h)

/-- C10: in every store reachable from the fresh database, no two distinct
session rows — live or stale — share an `(agent_id, network_id)` pair: the
join transaction either evicts the stale holder before its upsert or fails
with the already-taken error leaving the table unchanged, and every other
operation preserves or only deletes rows. -/
theorem session_pair_uniqueness (ops : List Op) :
    (runOps ops initStore).sessions.Pairwise (fun a b =>
      ¬(a.agent_id = b.agent_id ∧ a.network_id = b.network_id)) :=
  (sessions_wf_runOps ops initStore
    ⟨List.Pairwise.nil, List.Pairwise.nil⟩).1

/-! ### C1: delivery happens exactly once -/

lemma fetch_rows_mem (st : Store) (a : String) (lim : Nat) :
    ∀ m ∈ fetch_rows st a lim,
      m ∈ st.messages ∧ m.status = MsgStatus.pending ∧
        m.recipient_id = a := by
  intro m hm
  have h1 : m ∈ (pending_for st a).insertionSort
      (fun x y => x.created_at ≤ y.created_at) :=
    List.take_subset lim _ hm
  have h2 : m ∈ pending_for st a :=
    (List.perm_insertionSort _ _).mem_iff.mp h1
  unfold pending_for at h2
  rw [List.mem_filter] at h2
  obtain ⟨hmem, hpred⟩ := h2
  simp only [Bool.and_eq_true, beq_iff_eq] at hpred
  exact ⟨hmem, hpred.2, hpred.1⟩

lemma fetch_result_messages (st : Store) (sid : Option String) (a : String)
    (lim : Nat) (now : Int) :
    (fetch_and_deliver st sid a lim now).1.messages = fetch_rows st a lim := by
  unfold fetch_and_deliver
  dsimp only
  split
  · rename_i hempty
    rw [List.isEmpty_iff] at hempty
    exact hempty.symm
  · rfl

lemma fetch_and_deliver_next (st : Store) (sid : Option String) (a : String)
    (lim : Nat) (now : Int) :
    (fetch_and_deliver st sid a lim now).2.next_msg_id = st.next_msg_id := by
  unfold fetch_and_deliver
  dsimp only
  repeat' split
  all_goals rfl

lemma fetch_messages_eq (st : Store) (sid : Option String) (a : String)
    (lim : Nat) (now : Int) :
    (fetch_and_deliver st sid a lim now).2.messages =
      st.messages.map (fun m =>
        if (((fetch_rows st a lim).map (fun x => x.id)).contains m.id &&
            m.status == MsgStatus.pending) then
          { m with status := MsgStatus.delivered, delivered_at := some now }
        else m) := by
  unfold fetch_and_deliver
  dsimp only
  split
  · rename_i hempty
    rw [List.isEmpty_iff] at hempty
    rw [hempty]
    have hf : ∀ m ∈ st.messages,
        (if ((([] : List Message).map (fun x => x.id)).contains m.id &&
            m.status == MsgStatus.pending) then
          { m with status := MsgStatus.delivered, delivered_at := some now }
        else m) = m := by
      intro m _
      simp
    rw [List.map_congr_left hf, List.map_id']
  · cases sid with
    | none => rfl
    | some s => rfl

lemma fetch_if_id (st : Store) (a : String) (lim : Nat) (now : Int)
    (m : Message) :
    ((if (((fetch_rows st a lim).map (fun x => x.id)).contains m.id &&
        m.status == MsgStatus.pending) then
      { m with status := MsgStatus.delivered, delivered_at := some now }
    else m) : Message).id = m.id := by
  split
  · rfl
  · rfl

lemma fetch_marks (st : Store) (sid : Option String) (a : String)
    (lim : Nat) (now : Int) :
    ∀ m' ∈ (fetch_and_deliver st sid a lim now).2.messages,
      m'.id ∈ (fetch_rows st a lim).map (fun x => x.id) →
      m'.status = MsgStatus.delivered := by
  intro m' hm' hid
  rw [fetch_messages_eq] at hm'
  simp only [List.mem_map] at hm'
  obtain ⟨m, hm, rfl⟩ := hm'
  rw [fetch_if_id] at hid
  by_cases hp : m.status = MsgStatus.pending
  · have hct : ((((fetch_rows st a lim).map (fun x => x.id)).contains m.id &&
        m.status == MsgStatus.pending)) = true := by
      simp only [Bool.and_eq_true, beq_iff_eq]
      exact ⟨List.elem_iff.mpr hid, hp⟩
    rw [hct]
    simp
  · have hst : m.status = MsgStatus.delivered := by
      cases h2 : m.status
      · exact absurd h2 hp
      · rfl
    have hcf : ((((fetch_rows st a lim).map (fun x => x.id)).contains m.id &&
        m.status == MsgStatus.pending)) = false := by
      simp [hst]
    rw [hcf]
    simp only [Bool.false_eq_true, if_false]
    exact hst

lemma fetch_untouched (st : Store) (sid : Option String) (a : String)
    (lim : Nat) (now : Int) :
    ∀ m ∈ st.messages,
      m.id ∉ (fetch_rows st a lim).map (fun x => x.id) →
      m ∈ (fetch_and_deliver st sid a lim now).2.messages := by
  intro m hm hid
  rw [fetch_messages_eq]
  have hcf : ((((fetch_rows st a lim).map (fun x => x.id)).contains m.id &&
      m.status == MsgStatus.pending)) = false := by
    have : (((fetch_rows st a lim).map (fun x => x.id)).contains m.id) =
        false := by
      by_contra hc
      rw [Bool.not_eq_false] at hc
      exact hid (List.elem_iff.mp hc)
    rw [this]
    rfl
  refine List.mem_map.mpr ⟨m, hm, ?_⟩
  rw [hcf]
  simp

lemma msg_wf_congr (st st' : Store) (hm : st'.messages = st.messages)
    (hn : st'.next_msg_id = st.next_msg_id) (h : msg_wf st) : msg_wf st' := by
  obtain ⟨h1, h2⟩ := h
  constructor
  · intro m hmem
    rw [hm] at hmem
    rw [hn]
    exact h1 m hmem
  · rw [hm]
    exact h2

lemma delivered_ids_congr (S : List Nat) (st st' : Store)
    (hm : st'.messages = st.messages) (hn : st'.next_msg_id = st.next_msg_id)
    (h : delivered_ids S st) : delivered_ids S st' := by
  obtain ⟨h1, h2⟩ := h
  constructor
  · intro i hi
    rw [hn]
    exact h1 i hi
  · intro m hmem hid
    rw [hm] at hmem
    exact h2 m hmem hid

lemma msg_wf_insert (st : Store) (n s r c : String) (b : Bool) (t : Int)
    (h : msg_wf st) : msg_wf (insert_message st n s r c b t) := by
  obtain ⟨h1, h2⟩ := h
  constructor
  · intro m hm
    simp only [insert_message, List.mem_append, List.mem_singleton] at hm
    show m.id < st.next_msg_id + 1
    rcases hm with hm | rfl
    · have := h1 m hm
      omega
    · show st.next_msg_id < st.next_msg_id + 1
      omega
  · simp only [insert_message]
    rw [List.map_append]
    refine h2.append (List.nodup_singleton _) ?_
    intro x hx hx'
    simp only [List.map_cons, List.map_nil, List.mem_singleton] at hx'
    subst hx'
    simp only [List.mem_map] at hx
    obtain ⟨m, hm, hidm⟩ := hx
    have := h1 m hm
    omega

lemma delivered_ids_insert (S : List Nat) (st : Store) (n s r c : String)
    (b : Bool) (t : Int) (h : delivered_ids S st) :
    delivered_ids S (insert_message st n s r c b t) := by
  obtain ⟨h1, h2⟩ := h
  constructor
  · intro i hi
    show i < st.next_msg_id + 1
    have := h1 i hi
    omega
  · intro m hm hid
    simp only [insert_message, List.mem_append, List.mem_singleton] at hm
    rcases hm with hm | rfl
    · exact h2 m hm hid
    · exact absurd (h1 _ hid) (lt_irrefl _)

lemma msg_wf_notify (l : List Session) (st : Store) (c : String) (t : Int)
    (h : msg_wf st) : msg_wf (notify_sessions st l c t) := by
  induction l generalizing st with
  | nil => exact h
  | cons s rest ih =>
    unfold notify_sessions at ih ⊢
    simp only [List.foldl_cons]
    exact ih _ (msg_wf_insert st _ _ _ _ _ _ h)

lemma delivered_ids_notify (S : List Nat) (l : List Session) (st : Store)
    (c : String) (t : Int) (h : delivered_ids S st) :
    delivered_ids S (notify_sessions st l c t) := by
  induction l generalizing st with
  | nil => exact h
  | cons s rest ih =>
    unfold notify_sessions at ih ⊢
    simp only [List.foldl_cons]
    exact ih _ (delivered_ids_insert S st _ _ _ _ _ _ h)

lemma msg_wf_broadcast_loop (l : List Session) (aid nid c : String)
    (now : Int) : ∀ st : Store, msg_wf st →
    msg_wf (broadcast_loop aid nid c now l st).2.2 := by
  induction l with
  | nil => intro st h; exact h
  | cons s rest ih =>
    intro st h
    unfold broadcast_loop
    dsimp only
    split
    · exact ih st h
    · split
      · exact ih st h
      · exact ih _ (msg_wf_insert st _ _ _ _ _ _ h)

lemma delivered_ids_broadcast_loop (S : List Nat) (l : List Session)
    (aid nid c : String) (now : Int) : ∀ st : Store, delivered_ids S st →
    delivered_ids S (broadcast_loop aid nid c now l st).2.2 := by
  induction l with
  | nil => intro st h; exact h
  | cons s rest ih =>
    intro st h
    unfold broadcast_loop
    dsimp only
    split
    · exact ih st h
    · split
      · exact ih st h
      · exact ih _ (delivered_ids_insert S st _ _ _ _ _ _ h)

lemma msg_wf_fetch (st : Store) (sid : Option String) (a : String)
    (lim : Nat) (now : Int) (h : msg_wf st) :
    msg_wf (fetch_and_deliver st sid a lim now).2 := by
  obtain ⟨h1, h2⟩ := h
  constructor
  · intro m' hm'
    rw [fetch_messages_eq] at hm'
    rw [fetch_and_deliver_next]
    simp only [List.mem_map] at hm'
    obtain ⟨m, hm, rfl⟩ := hm'
    rw [fetch_if_id]
    exact h1 m hm
  · rw [fetch_messages_eq, List.map_map]
    have he : ((fun x : Message => x.id) ∘ (fun m =>
        if (((fetch_rows st a lim).map (fun x => x.id)).contains m.id &&
            m.status == MsgStatus.pending) then
          { m with status := MsgStatus.delivered, delivered_at := some now }
        else m)) = fun m : Message => m.id := by
      funext m
      exact fetch_if_id st a lim now m
    rw [he]
    exact h2

lemma delivered_ids_fetch (S : List Nat) (st : Store) (sid : Option String)
    (a : String) (lim : Nat) (now : Int) (h : delivered_ids S st) :
    delivered_ids S (fetch_and_deliver st sid a lim now).2 := by
  obtain ⟨h1, h2⟩ := h
  constructor
  · intro i hi
    rw [fetch_and_deliver_next]
    exact h1 i hi
  · intro m' hm' hid
    rw [fetch_messages_eq] at hm'
    simp only [List.mem_map] at hm'
    obtain ⟨m, hm, rfl⟩ := hm'
    rw [fetch_if_id] at hid
    have hdel := h2 m hm hid
    have hcf : ((((fetch_rows st a lim).map (fun x => x.id)).contains m.id &&
        m.status == MsgStatus.pending)) = false := by
      simp [hdel]
    rw [hcf]
    simp only [Bool.false_eq_true, if_false]
    exact hdel

lemma msg_wf_sweep (st : Store) (now : Int) (h : msg_wf st) :
    msg_wf (retention_sweep st now) := by
  obtain ⟨h1, h2⟩ := h
  constructor
  · intro m hm
    exact h1 m (List.mem_of_mem_filter hm)
  · exact h2.sublist (List.Sublist.map _ (List.filter_sublist _))

lemma delivered_ids_sweep (S : List Nat) (st : Store) (now : Int)
    (h : delivered_ids S st) : delivered_ids S (retention_sweep st now) := by
  obtain ⟨h1, h2⟩ := h
  exact ⟨h1, fun m hm hid => h2 m (List.mem_of_mem_filter hm) hid⟩

lemma send_message_store_cases (st : Store) (now : Int)
    (ra : String → List String) (ds : String → Nat)
    (aid nid to_id content : String) :
    (send_message st now ra ds aid nid to_id content).2 = st ∨
    (send_message st now ra ds aid nid to_id content).2 =
      insert_message st nid aid to_id content false now := by
  unfold send_message
  repeat' split
  all_goals first
  | exact Or.inl rfl
  | exact Or.inr rfl

lemma broadcast_store_cases (st : Store) (now : Int)
    (aid nid content : String) :
    (broadcast st now aid nid content).2 = st ∨
    ∃ l, (broadcast st now aid nid content).2 =
      (broadcast_loop aid nid content now l st).2.2 := by
  unfold broadcast
  split
  · exact Or.inl rfl
  · dsimp only
    split
    · exact Or.inl rfl
    · exact Or.inr ⟨_, rfl⟩

lemma pair_with_store (st : Store) (now : Int) (lu : Option String)
    (n u s : String) :
    (pair_with st now lu n u s).messages = st.messages ∧
    (pair_with st now lu n u s).next_msg_id = st.next_msg_id := by
  unfold pair_with
  repeat' split
  all_goals exact ⟨rfl, rfl⟩

lemma approve_peer_store (st : Store) (now : Int) (pid : String) (r : Bool) :
    (approve_peer st now pid r).messages = st.messages ∧
    (approve_peer st now pid r).next_msg_id = st.next_msg_id := by
  unfold approve_peer
  repeat' split
  all_goals exact ⟨rfl, rfl⟩

lemma join_network_store (st : Store) (now : Int)
    (sid aid nid role : String) :
    (join_network st now sid aid nid role).2.messages = st.messages ∧
    (join_network st now sid aid nid role).2.next_msg_id = st.next_msg_id := by
  unfold join_network
  split
  · exact ⟨rfl, rfl⟩
  · dsimp only
    split
    · exact ⟨rfl, rfl⟩
    · exact ⟨rfl, rfl⟩

lemma msg_wf_pair_request (st : Store) (now : Int) (n u s : String)
    (h : msg_wf st) : msg_wf (handle_pair_request st now n u s) := by
  unfold handle_pair_request
  split
  · exact h
  · dsimp only
    apply msg_wf_notify
    split
    · exact msg_wf_congr st _ rfl rfl h
    · exact msg_wf_congr st _ rfl rfl h

lemma delivered_ids_pair_request (S : List Nat) (st : Store) (now : Int)
    (n u s : String) (h : delivered_ids S st) :
    delivered_ids S (handle_pair_request st now n u s) := by
  unfold handle_pair_request
  split
  · exact h
  · dsimp only
    apply delivered_ids_notify
    split
    · exact delivered_ids_congr S st _ rfl rfl h
    · exact delivered_ids_congr S st _ rfl rfl h

lemma msg_wf_pair_accept (st : Store) (now : Int) (n : String)
    (h : msg_wf st) : msg_wf (handle_pair_accept st now n) := by
  unfold handle_pair_accept
  split
  · exact h
  · split
    · exact h
    · dsimp only
      apply msg_wf_notify
      exact msg_wf_congr st _ rfl rfl h

lemma delivered_ids_pair_accept (S : List Nat) (st : Store) (now : Int)
    (n : String) (h : delivered_ids S st) :
    delivered_ids S (handle_pair_accept st now n) := by
  unfold handle_pair_accept
  split
  · exact h
  · split
    · exact h
    · dsimp only
      apply delivered_ids_notify
      exact delivered_ids_congr S st _ rfl rfl h

lemma msg_wf_applyOp (st : Store) (op : Op) (h : msg_wf st) :
    msg_wf (applyOp st op) := by
  cases op with
  | join sid aid nid role now =>
    exact msg_wf_congr st _ (join_network_store st now sid aid nid role).1
      (join_network_store st now sid aid nid role).2 h
  | leave sid => exact msg_wf_congr st _ rfl rfl h
  | send sid to_id content ra ds now =>
    cases hgi : get_identity st sid with
    | none =>
      simp only [applyOp, hgi]
      exact h
    | some pr =>
      obtain ⟨aid, nid⟩ := pr
      simp only [applyOp, hgi]
      rcases send_message_store_cases st now ra ds aid nid to_id content
        with he | he
      · rw [he]
        exact h
      · rw [he]
        exact msg_wf_insert st _ _ _ _ _ _ h
  | bcast sid content now =>
    cases hgi : get_identity st sid with
    | none =>
      simp only [applyOp, hgi]
      exact h
    | some pr =>
      obtain ⟨aid, nid⟩ := pr
      simp only [applyOp, hgi]
      rcases broadcast_store_cases st now aid nid content with he | ⟨l, he⟩
      · rw [he]
        exact h
      · rw [he]
        exact msg_wf_broadcast_loop l aid nid content now st h
  | fetch sid limit now =>
    cases hgi : get_identity st sid with
    | none =>
      simp only [applyOp, hgi]
      exact h
    | some pr =>
      obtain ⟨aid, nid⟩ := pr
      simp only [applyOp, hgi]
      exact msg_wf_fetch st (some sid) aid limit now h
  | hook_drain sid now =>
    cases hgi : get_identity st sid with
    | none =>
      simp only [applyOp, hgi]
      exact h
    | some pr =>
      obtain ⟨aid, nid⟩ := pr
      simp only [applyOp, hgi]
      exact msg_wf_fetch st (some sid) aid 3 now h
  | beat sid now => exact msg_wf_congr st _ rfl rfl h
  | sweep now => exact msg_wf_sweep st now h
  | pair lu n u s now =>
    exact msg_wf_congr st _ (pair_with_store st now lu n u s).1
      (pair_with_store st now lu n u s).2 h
  | pair_request n u s now => exact msg_wf_pair_request st now n u s h
  | approve pid r now =>
    exact msg_wf_congr st _ (approve_peer_store st now pid r).1
      (approve_peer_store st now pid r).2 h
  | pair_accept n now => exact msg_wf_pair_accept st now n h
  | peer_remove pid => exact msg_wf_congr st _ rfl rfl h

lemma delivered_ids_applyOp (S : List Nat) (st : Store) (op : Op)
    (h : delivered_ids S st) : delivered_ids S (applyOp st op) := by
  cases op with
  | join sid aid nid role now =>
    exact delivered_ids_congr S st _
      (join_network_store st now sid aid nid role).1
      (join_network_store st now sid aid nid role).2 h
  | leave sid => exact delivered_ids_congr S st _ rfl rfl h
  | send sid to_id content ra ds now =>
    cases hgi : get_identity st sid with
    | none =>
      simp only [applyOp, hgi]
      exact h
    | some pr =>
      obtain ⟨aid, nid⟩ := pr
      simp only [applyOp, hgi]
      rcases send_message_store_cases st now ra ds aid nid to_id content
        with he | he
      · rw [he]
        exact h
      · rw [he]
        exact delivered_ids_insert S st _ _ _ _ _ _ h
  | bcast sid content now =>
    cases hgi : get_identity st sid with
    | none =>
      simp only [applyOp, hgi]
      exact h
    | some pr =>
      obtain ⟨aid, nid⟩ := pr
      simp only [applyOp, hgi]
      rcases broadcast_store_cases st now aid nid content with he | ⟨l, he⟩
      · rw [he]
        exact h
      · rw [he]
        exact delivered_ids_broadcast_loop S l aid nid content now st h
  | fetch sid limit now =>
    cases hgi : get_identity st sid with
    | none =>
      simp only [applyOp, hgi]
      exact h
    | some pr =>
      obtain ⟨aid, nid⟩ := pr
      simp only [applyOp, hgi]
      exact delivered_ids_fetch S st (some sid) aid limit now h
  | hook_drain sid now =>
    cases hgi : get_identity st sid with
    | none =>
      simp only [applyOp, hgi]
      exact h
    | some pr =>
      obtain ⟨aid, nid⟩ := pr
      simp only [applyOp, hgi]
      exact delivered_ids_fetch S st (some sid) aid 3 now h
  | beat sid now => exact delivered_ids_congr S st _ rfl rfl h
  | sweep now => exact delivered_ids_sweep S st now h
  | pair lu n u s now =>
    exact delivered_ids_congr S st _ (pair_with_store st now lu n u s).1
      (pair_with_store st now lu n u s).2 h
  | pair_request n u s now => exact delivered_ids_pair_request S st now n u s h
  | approve pid r now =>
    exact delivered_ids_congr S st _ (approve_peer_store st now pid r).1
      (approve_peer_store st now pid r).2 h
  | pair_accept n now => exact delivered_ids_pair_accept S st now n h
  | peer_remove pid => exact delivered_ids_congr S st _ rfl rfl h

lemma msg_wf_runOps (ops : List Op) (st : Store) (h : msg_wf st) :
    msg_wf (runOps ops st) := by
  induction ops generalizing st with
  | nil => exact h
  | cons op rest ih =>
    simp only [runOps, List.foldl_cons]
    exact ih (applyOp st op) (msg_wf_applyOp st op h)

lemma delivered_ids_runOps (S : List Nat) (ops : List Op) (st : Store)
    (h : delivered_ids S st) : delivered_ids S (runOps ops st) := by
  induction ops generalizing st with
  | nil => exact h
  | cons op rest ih =>
    simp only [runOps, List.foldl_cons]
    exact ih (applyOp st op) (delivered_ids_applyOp S st op h)

lemma msg_wf_initStore : msg_wf initStore := by
  constructor
  · intro m hm
    simp [initStore] at hm
  · simp [initStore]

/-- C1: in every reachable store, a fetch returns only messages that were
pending for its recipient and flips exactly those to delivered (all other
rows pass through untouched); no operation of the system ever returns a
delivered message to pending (any row later carrying the same id is still
delivered); and consequently two fetches — with any operations in between —
never return the same message id. -/
theorem fetch_delivers_exactly_once (pre mid : List Op)
    (sid1 sid2 : Option String) (a1 a2 : String) (l1 l2 : Nat)
    (t1 t2 : Int) :
    (∀ m ∈ (fetch_and_deliver (runOps pre initStore) sid1 a1 l1
        t1).1.messages,
      m ∈ (runOps pre initStore).messages ∧ m.status = MsgStatus.pending ∧
        m.recipient_id = a1) ∧
    (∀ m' ∈ (fetch_and_deliver (runOps pre initStore) sid1 a1 l1
        t1).2.messages,
      m'.id ∈ ((fetch_and_deliver (runOps pre initStore) sid1 a1 l1
        t1).1.messages.map (fun x => x.id)) →
      m'.status = MsgStatus.delivered) ∧
    (∀ m ∈ (runOps pre initStore).messages,
      m.id ∉ ((fetch_and_deliver (runOps pre initStore) sid1 a1 l1
        t1).1.messages.map (fun x => x.id)) →
      m ∈ (fetch_and_deliver (runOps pre initStore) sid1 a1 l1
        t1).2.messages) ∧
    (∀ (ops : List Op) (m m' : Message),
      m ∈ (runOps pre initStore).messages →
      m.status = MsgStatus.delivered →
      m' ∈ (runOps ops (runOps pre initStore)).messages → m'.id = m.id →
      m'.status = MsgStatus.delivered) ∧
    (∀ i ∈ ((fetch_and_deliver (runOps pre initStore) sid1 a1 l1
        t1).1.messages.map (fun x => x.id)),
      i ∉ ((fetch_and_deliver
        (runOps mid (fetch_and_deliver (runOps pre initStore) sid1 a1 l1
          t1).2) sid2 a2 l2 t2).1.messages.map (fun x => x.id))) := by
  have hwf : msg_wf (runOps pre initStore) :=
    msg_wf_runOps pre initStore msg_wf_initStore
  have hres1 := fetch_result_messages (runOps pre initStore) sid1 a1 l1 t1
  refine ⟨?_, ?_, ?_, ?_, ?_⟩
  · intro m hm
    rw [hres1] at hm
    exact fetch_rows_mem (runOps pre initStore) a1 l1 m hm
  · intro m' hm' hid
    rw [hres1] at hid
    exact fetch_marks (runOps pre initStore) sid1 a1 l1 t1 m' hm' hid
  · intro m hm hid
    rw [hres1] at hid
    exact fetch_untouched (runOps pre initStore) sid1 a1 l1 t1 m hm hid
  · intro ops m m' hm hdel hm' hid
    have hS : delivered_ids [m.id] (runOps pre initStore) := by
      constructor
      · intro i hi
        simp only [List.mem_singleton] at hi
        subst hi
        exact hwf.1 m hm
      · intro m'' hm'' hid''
        simp only [List.mem_singleton] at hid''
        have he := List.inj_on_of_nodup_map hwf.2 hm'' hm hid''
        rw [he]
        exact hdel
    have hS' := delivered_ids_runOps [m.id] ops (runOps pre initStore) hS
    exact hS'.2 m' hm' (by simp [hid])
  · intro i hi hi2
    have hS : delivered_ids
        ((fetch_and_deliver (runOps pre initStore) sid1 a1 l1
          t1).1.messages.map (fun x => x.id))
        (fetch_and_deliver (runOps pre initStore) sid1 a1 l1 t1).2 := by
      constructor
      · intro j hj
        rw [fetch_and_deliver_next]
        rw [hres1] at hj
        simp only [List.mem_map] at hj
        obtain ⟨m, hm, rfl⟩ := hj
        exact hwf.1 m (fetch_rows_mem (runOps pre initStore) a1 l1 m hm).1
      · intro m' hm' hid'
        rw [hres1] at hid'
        exact fetch_marks (runOps pre initStore) sid1 a1 l1 t1 m' hm' hid'
    have hS2 := delivered_ids_runOps _ mid _ hS
    have hres2 := fetch_result_messages
      (runOps mid (fetch_and_deliver (runOps pre initStore) sid1 a1 l1
        t1).2) sid2 a2 l2 t2
    rw [hres2] at hi2
    simp only [List.mem_map] at hi2
    obtain ⟨m2, hm2, hideq⟩ := hi2
    have hmem := fetch_rows_mem _ a2 l2 m2 hm2
    have hdel := hS2.2 m2 hmem.1 (by rw [hideq]; exact hi)
    rw [hmem.2.1] at hdel
    exact MsgStatus.noConfusion hdel

/-- Witness for C1 at a concrete trace: A and B join, A sends one message
to B; the first fetch by B returns message 1 and a second fetch (same
recipient, nothing in between) does not return id 1 again. -/
theorem fetch_delivers_exactly_once_witness :
    (1 ∈ ((fetch_and_deliver (runOps c1_pre_ops initStore) (some "s2") "B"
      5 2).1.messages.map (fun x => x.id))) ∧
    (1 ∉ ((fetch_and_deliver
      (runOps [] (fetch_and_deliver (runOps c1_pre_ops initStore)
        (some "s2") "B" 5 2).2) (some "s2") "B" 5 3).1.messages.map
          (fun x => x.id))) := by
  constructor
  · decide
  · exact (fetch_delivers_exactly_once c1_pre_ops [] (some "s2")
      (some "s2") "B" "B" 5 5 2 3).2.2.2.2 1 (by decide)
